import Mathlib

/-!
Verification development for `utils/make_release.py`, the release-orchestration
script of the gimp-plugin-export-layers repository.

The script is shallowly embedded as follows.

* The changelog header rewrite (`_get_release_notes_and_modify_changelog_first_header`)
  works with two concrete regular expressions on the changelog text:
  `# (.*?)\n` and `(.*?)\n=+\n` (leftmost match, `.` never crossing a newline).
  These two patterns, and nothing more general, are implemented directly as
  recursive functions on `List Char` below (`hashMatchSplit`, `underlineMatchSplit`,
  `firstHeaderMatch`).
* The config-file entry rewrite (`_update_version_and_release_date_in_config`)
  scans lines against the anchored pattern `^(c\.NAME = )"(.*)"$`; this is
  `lineMatchesEntry` / `substEntry` / `processLine` / `scanLines`.
* The orchestrator (`make_release`, `_make_release`, `_rollback`, the SIGINT
  handler) is a step sequence over an explicit process state: a `World`
  (both git working trees, the tracked files, the installers output directory,
  the remote-side effects, the in-memory `pg.config` fields and the text written
  to stdout/stderr) together with the `_ReleaseMetadata` object.  Python
  exceptions are `Err.exc` (subclasses of `Exception`, caught by the
  `except Exception` handler) and `Err.exit` (a `SystemExit` raised through
  `sys.exit`, which is *not* an `Exception` and escapes that handler).
  External effects that can succeed or fail (git subcommands, the artifact
  build, HTTP calls) are driven by boolean oracles in `Env`.
* `git reset --hard` is modelled as moving HEAD back to the given commit id and
  clearing the dirty flag; restoration of individual working-tree files is not
  tracked, since no claim depends on it.
-/

set_option autoImplicit false

/-! ### Generic character-list helpers -/

/-- Splits a character list at its first newline: `splitAtNewline cs = some (a, b)`
iff `cs = a ++ '\n' :: b` with `a` newline-free; `none` if `cs` has no newline. -/
def splitAtNewline : List Char → Option (List Char × List Char)
  | [] => none
  | c :: rest =>
    if c = '\n' then some ([], rest)
    else (splitAtNewline rest).map (fun p => (c :: p.1, p.2))

/-- Auxiliary accumulator-based line splitter; lines keep their trailing newline. -/
def linesWithEndsAux (cur : List Char) : List Char → List (List Char)
  | [] => if cur.isEmpty then [] else [cur.reverse]
  | c :: rest =>
    if c = '\n' then (cur.reverse ++ ['\n']) :: linesWithEndsAux [] rest
    else linesWithEndsAux (c :: cur) rest

/-- Splits a document into lines, each line keeping its trailing newline
(the final line may lack one).  Concatenating the result re-yields the input. -/
def linesWithEnds (cs : List Char) : List (List Char) :=
  linesWithEndsAux [] cs

/-- Does the character list begin with the two characters of a first-level
markdown header marker, i.e. with `"# "`? -/
def startsWithHash : List Char → Bool
  | c1 :: c2 :: _ => c1 = '#' && c2 = ' '
  | _ => false

/-- Removes a trailing newline, reporting whether one was present. -/
def splitTrailingNewline (cs : List Char) : List Char × Bool :=
  match cs.reverse with
  | [] => (cs, false)
  | c :: r => if c = '\n' then (r.reverse, true) else (cs, false)

/-! ### The two changelog-header regular expressions

`re.search`/`re.sub` semantics for the two concrete patterns used by the
script: the leftmost match wins, `.` does not match a newline, `.*?` is lazy
and `=+` is greedy.  For both patterns this determinises to: the lazy group is
exactly the text up to the first newline reachable from the match position. -/

/-- Greedy `=+\n` anchored at the head, after at least one `=` was consumed:
consumes the remaining `=`-run and the closing newline, returning the tail. -/
def eqRunAfter : List Char → Option (List Char)
  | [] => none
  | c :: rest =>
    if c = '=' then eqRunAfter rest
    else if c = '\n' then some rest
    else none

/-- Anchored `=+\n`: one or more `=` followed by a newline; returns the tail. -/
def eqRunSplit : List Char → Option (List Char)
  | [] => none
  | c :: rest => if c = '=' then eqRunAfter rest else none

/-- Anchored match of `# (.*?)\n`: requires the head to be `"# "` and a newline
later in the same line; returns (captured title, text after the match). -/
def hashMatchAt : List Char → Option (List Char × List Char)
  | c1 :: c2 :: rest => if c1 = '#' ∧ c2 = ' ' then splitAtNewline rest else none
  | _ => none

/-- Anchored match of `(.*?)\n=+\n`: the lazy group is the text up to the first
newline, which must be followed by a nonempty `=`-run and a newline; returns
(captured title, text after the match). -/
def underlineMatchAt (cs : List Char) : Option (List Char × List Char) :=
  match splitAtNewline cs with
  | none => none
  | some (t, r) => (eqRunSplit r).map (fun tail => (t, tail))

/-- Leftmost match of `# (.*?)\n` in the document, split as
(text before the match, captured title, text after the match). -/
def hashMatchSplit : List Char → Option (List Char × List Char × List Char)
  | [] => none
  | c :: rest =>
    match hashMatchAt (c :: rest) with
    | some (t, tail) => some ([], t, tail)
    | none => (hashMatchSplit rest).map (fun p => (c :: p.1, p.2.1, p.2.2))

/-- Leftmost match of `(.*?)\n=+\n` in the document, split as
(text before the match, captured title, text after the match). -/
def underlineMatchSplit : List Char → Option (List Char × List Char × List Char)
  | [] => none
  | c :: rest =>
    match underlineMatchAt (c :: rest) with
    | some (t, tail) => some ([], t, tail)
    | none => (underlineMatchSplit rest).map (fun p => (c :: p.1, p.2.1, p.2.2))

/-- Leftmost match of the alternation `(# (.*?)\n|(.*?)\n=+\n)` (the pattern the
script applies to the raw header text): at each position the `#`-alternative is
tried first, mirroring Python alternation order.  Returns
`(true, title)` when group 2 (the `#`-style title) matched and
`(false, title)` when group 3 (the underline-style title) matched. -/
def firstHeaderMatch : List Char → Option (Bool × List Char)
  | [] => none
  | c :: rest =>
    match hashMatchAt (c :: rest) with
    | some (t, _) => some (true, t)
    | none =>
      match underlineMatchAt (c :: rest) with
      | some (t, _) => some (false, t)
      | none => firstHeaderMatch rest

/-- `re.sub(r"# .*?\n", "# " ++ v ++ "\n", doc, count=1)`: replaces the leftmost
match of the `#`-header pattern, if any. -/
def subHash (v : List Char) (doc : List Char) : List Char :=
  match hashMatchSplit doc with
  | some (pre, _, tail) => pre ++ '#' :: ' ' :: (v ++ '\n' :: tail)
  | none => doc

/-- `re.sub(r".*?\n=+\n", v ++ "\n" ++ "=" * len(v) ++ "\n", doc, count=1)`:
replaces the leftmost match of the underline-header pattern, if any; the new
underline has exactly the length of the new version string. -/
def subUnderline (v : List Char) (doc : List Char) : List Char :=
  match underlineMatchSplit doc with
  | some (pre, _, tail) => pre ++ v ++ '\n' :: (List.replicate v.length '=' ++ '\n' :: tail)
  | none => doc

/-! ### The section finder (spec-modelled) and the changelog step -/

/-- Is this raw line (trailing newline included) a `#`-style section header? -/
def lineIsHashHeader (l : List Char) : Bool :=
  startsWithHash l

/-- Is this raw line an underline line, i.e. one or more `=` characters
(ignoring the trailing newline)? -/
def isEqUnderlineLine (l : List Char) : Bool :=
  let content := (splitTrailingNewline l).1
  !content.isEmpty && content.all (fun c => c = '=')

/-- Finds the first section header among the given raw lines: either a line
beginning with `"# "`, or a title line whose successor is an underline line.
Returns the raw header text and the lines following it. -/
def findHeader : List (List Char) → Option (List Char × List (List Char))
  | [] => none
  | [l] => if lineIsHashHeader l then some (l, []) else none
  | l :: l2 :: ls2 =>
    if lineIsHashHeader l then some (l, l2 :: ls2)
    else if isEqUnderlineLine l2 then some (l ++ l2, ls2)
    else findHeader (l2 :: ls2)

/-- Collects the lines following a header up to (excluding) the next header. -/
def notesLines : List (List Char) → List (List Char)
  | [] => []
  | [l] => if lineIsHashHeader l then [] else [l]
  | l :: l2 :: ls =>
    if lineIsHashHeader l then []
    else if isEqUnderlineLine l2 then []
    else l :: notesLines (l2 :: ls)

/-- Modelled from the spec: `preprocess_document_contents.find_section`, whose
source is not part of this repository snapshot.  Per the spec it locates the
first section header of the document (two header styles: a line beginning with
`"# "`, or a title line followed by a line of one or more `=` characters) and
the text between it and the next header; it returns the raw header text and
that section text.  When the document has no header it returns two empty
strings (the caller's regular expression then fails to match, so the caller
does nothing either way). -/
def find_section (doc : String) : String × String :=
  match findHeader (linesWithEnds doc.data) with
  | none => ("", "")
  | some (h, after) => (String.mk h, String.mk (notesLines after).flatten)

/-- Python whitespace, as `str.strip()` removes it: space, tab, newline,
carriage return, vertical tab and form feed. -/
def isPythonSpace (c : Char) : Bool :=
  c = ' ' || c = '\t' || c = '\n' || c = '\r' || c = Char.ofNat 11 || c = Char.ofNat 12

/-- Python `str.strip()`: removes leading and trailing whitespace. -/
def pyStrip (cs : List Char) : List Char :=
  ((cs.dropWhile isPythonSpace).reverse.dropWhile isPythonSpace).reverse

/-- The pure core of `_get_release_notes_and_modify_changelog_first_header`:
given the new version, the released-versions snapshot, the dry-run flag and the
changelog text, returns (the value assigned to `new_version_release_notes`, if
any) and (the text written back to the changelog file, if any).  Mirrors the
source: the first-level-header regular expression runs on the raw header text
produced by `find_section`; a matched title already present among the released
versions (Python `None` group values are never `in` a list of strings) leaves
the document alone; otherwise the notes are recorded, the dry-run early return
fires before any rewrite, and else the document is rewritten with the
style-specific substitution — guarded by Python truthiness of the captured
group, so an empty title performs no substitution yet still writes the
(unchanged) document. -/
def modifyChangelog (newVersion : String) (released : List String) (dryRun : Bool)
    (doc : String) : Option String × Option String :=
  let hr := find_section doc
  match firstHeaderMatch hr.1.data with
  | none => (none, none)
  | some (isHash, title) =>
    if String.mk title ∈ released then (none, none)
    else
      let notes := String.mk (pyStrip hr.2.data)
      if dryRun then (some notes, none)
      else
        let doc2 :=
          if isHash then
            if title.isEmpty then doc else String.mk (subHash newVersion.data doc.data)
          else
            if title.isEmpty then doc else String.mk (subUnderline newVersion.data doc.data)
        (some notes, some doc2)

/-- The title of the first section of a document, as the header regular
expression extracts it from the raw header text found by `find_section`. -/
def firstSectionTitle (doc : String) : Option String :=
  (firstHeaderMatch (find_section doc).1.data).map (fun p => String.mk p.2)

/-! ### The config-file entry rewrite -/

/-- Does `p` occur as a prefix of `cs`? -/
def listHasPrefix : List Char → List Char → Bool
  | [], _ => true
  | _ :: _, [] => false
  | p :: ps, c :: cs => p = c && listHasPrefix ps cs

/-- Does the line match the anchored pattern `^(c\.NAME = )"(.*)"$`?
Python `$` also matches just before a trailing newline at the end of the
string; `.` never matches a newline, so the line core (the line without its
trailing newline) must be newline-free, start with `c.NAME = "` and end with a
closing quote of its own. -/
def lineMatchesEntry (name line : String) : Bool :=
  let core := (splitTrailingNewline line.data).1
  let pre := ("c." ++ name ++ " = \"").data
  core.all (fun c => c ≠ '\n') && listHasPrefix pre core
    && core.getLast? = some '"' && pre.length + 1 ≤ core.length

/-- `re.sub` of the matched line with replacement `\1"value"`: the whole core is
replaced by `c.NAME = "value"`, keeping the trailing newline when present.
(Replacement-string escape processing is not modelled; the script substitutes a
version string and a date.) -/
def substEntry (name value line : String) : String :=
  let tn := splitTrailingNewline line.data
  String.mk (("c." ++ name ++ " = \"" ++ value ++ "\"").data
    ++ (if tn.2 then ['\n'] else []))

/-- The inner loop of the config update for one line: iterates the pending
entries in order against the *original* line (as the source does); each
matching entry overwrites the stored line with its own substitution of the
original line and is removed from the pending set. -/
def processLine : List (String × String) → String → String → String × List (String × String)
  | [], _, cur => (cur, [])
  | e :: rest, line, cur =>
    if lineMatchesEntry e.1 line then
      processLine rest line (substEntry e.1 e.2 line)
    else
      let r := processLine rest line cur
      (r.1, e :: r.2)

/-- The outer loop of the config update: processes the lines in order, breaking
out as soon as no entries remain pending (the remaining lines pass through
untouched).  Returns the updated lines and the pending (missing) entries. -/
def scanLines : List (String × String) → List String → List String × List (String × String)
  | pending, [] => ([], pending)
  | pending, l :: ls =>
    let r := processLine pending l l
    if r.2.isEmpty then (r.1 :: ls, [])
    else
      let rec' := scanLines r.2 ls
      (r.1 :: rec'.1, rec'.2)

/-! ### The orchestrator data model -/

/-- The distinguished exit status of the interactive-decline path
(`PROMPT_NO_EXIT_STATUS` in the source). -/
def PROMPT_NO_EXIT_STATUS : Nat := 2

/-- The fatal conditions the script reports through `_print_error_and_exit`,
i.e. through a `SystemExit` (labelled with the spec's error-kind names). -/
inductive ExitKind where
  | dirtyWorkingTree
  | invalidVersionFormat
  | versionIncrementConflict
  | tagAlreadyExists
  | userDeclined
  | missingConfigEntries
  deriving DecidableEq, Repr

/-- The classes of ordinary Python exceptions (`Exception` subclasses) the
script's operations can raise: `git.GitCommandError` from git subcommands,
`OSError` from directory operations, an arbitrary error from the external
artifact builder, and `requests.HTTPError` from the GitHub API. -/
inductive ExcKind where
  | gitCommand
  | osError
  | build
  | http
  deriving DecidableEq, Repr

/-- An abnormal outcome of a step: `exit` is a `SystemExit` (not an `Exception`,
so it escapes the `except Exception` handler of `make_release`); `exc` is an
ordinary exception (caught by that handler). -/
inductive Err where
  | exit (status : Nat) (kind : ExitKind)
  | exc (kind : ExcKind)
  deriving DecidableEq, Repr

/-- The command-line options forwarded to `make_release` as keyword arguments
and bound read-only on the `_ReleaseMetadata` object. -/
structure Opts where
  releaseType : String
  githubAccessToken : String
  force : Bool
  installers : List String
  dryRun : Bool
  prerelease : Option String
  remoteName : String
  remoteBranch : String
  interactive : Bool
  deriving DecidableEq, Repr

/-- One git working tree: current HEAD commit id, tag list, whether
`git status --porcelain` reports local changes, and the active branch name. -/
structure Repo where
  headId : String
  tags : List String
  hasLocalChanges : Bool
  activeBranch : String
  deriving DecidableEq, Repr

/-- The observable process-external state plus the in-memory module state:
both repositories, the two tracked files of the main working tree, the
installers output directory, the remote-side effects, the mutable fields of the
shared `pg.config` object and the text printed so far. -/
structure World where
  repo : Repo
  ghPagesRepo : Repo
  changelog : String
  configLines : List String
  pluginVersion : String
  pluginVersionReleaseDate : String
  authorName : String
  repositoryName : String
  installersDirExists : Bool
  pushedMainBranch : Bool
  pushedTag : Bool
  pushedGhPages : Bool
  githubReleaseCreated : Bool
  assetsUploaded : Bool
  stdoutLines : List String
  stderrLines : List String
  deriving DecidableEq, Repr

/-- The `_ReleaseMetadata` object: the two mutable fields (`new_version`,
`new_version_release_notes`), the checkpoint commit ids captured at
construction, the values read from `pg.config` and the tag list at
construction, and the read-only keyword options. -/
structure Metadata where
  currentVersion : String
  releasedVersions : List String
  username : String
  remoteRepoName : String
  newVersion : Option String
  newVersionReleaseNotes : String
  lastCommitIdBeforeRelease : String
  lastGhPagesCommitIdBeforeRelease : String
  opts : Opts
  deriving DecidableEq, Repr

/-- The whole process state threaded through the steps. -/
structure S where
  world : World
  md : Metadata
  deriving DecidableEq, Repr

/-- Oracles for the external collaborators: the version-parser contract
(`pg.version`), the interactive prompt response, the current date, fresh commit
ids, and one failure flag per fallible external operation. -/
structure Env where
  parseOk : Bool
  incrementOk : Bool
  nextVersion : String
  promptAffirmative : Bool
  releaseDate : String
  newCommitId : String
  newGhPagesCommitId : String
  commitFails : Bool
  ghPagesCommitFails : Bool
  tagFails : Bool
  prepareGhPagesFails : Bool
  buildFails : Bool
  pushMainFails : Bool
  pushTagFails : Bool
  pushGhPagesFails : Bool
  publishFails : Bool
  uploadFails : Bool
  rmtreeFails : Bool
  resetMainFails : Bool
  resetGhPagesFails : Bool
  deriving DecidableEq, Repr

/-- Appends a line to stdout. -/
def printOut (msg : String) (s : S) : S :=
  { s with world := { s.world with stdoutLines := s.world.stdoutLines ++ [msg] } }

/-- `_print_error`: appends a line to stderr. -/
def print_error (msg : String) (s : S) : S :=
  { s with world := { s.world with stderrLines := s.world.stderrLines ++ [msg] } }

/-- `released_versions=repo.git.tag("-l").strip("\n").split("\n")`: splitting
the joined tag-list output; on an empty tag list Python yields `[""]`. -/
def releasedVersionsOf (tags : List String) : List String :=
  if tags.isEmpty then [""] else tags

/-- Construction of the `_ReleaseMetadata` object at the top of `make_release`:
the current version and author data are read from the shared `pg.config`
object, the released versions from the tag list, and the two checkpoint commit
ids from `git rev-parse HEAD` on either repository. -/
def mkReleaseMetadata (opts : Opts) (w : World) : Metadata :=
  { currentVersion := w.pluginVersion
    releasedVersions := releasedVersionsOf w.repo.tags
    username := w.authorName
    remoteRepoName := w.repositoryName
    newVersion := none
    newVersionReleaseNotes := ""
    lastCommitIdBeforeRelease := w.repo.headId
    lastGhPagesCommitIdBeforeRelease := w.ghPagesRepo.headId
    opts := opts }

/-! ### The step sequence -/

/-- Sequencing of steps: an abnormal outcome aborts the remaining steps. -/
def andThen (r : Option Err × S) (f : S → Option Err × S) : Option Err × S :=
  match r with
  | (some e, s) => (some e, s)
  | (none, s) => f s

/-- `_check_branches_for_local_changes`: the main repository must be clean
unless `force` is set; the gh-pages repository must be clean unconditionally. -/
def check_branches_for_local_changes (s : S) : Option Err × S :=
  if !s.md.opts.force && s.world.repo.hasLocalChanges then
    (some (Err.exit 1 ExitKind.dirtyWorkingTree),
      print_error "Repository contains local changes. Please remove or commit changes before proceeding." s)
  else if s.world.ghPagesRepo.hasLocalChanges then
    (some (Err.exit 1 ExitKind.dirtyWorkingTree),
      print_error "Repository in the gh-pages branch contains local changes. Please remove or commit changes before proceeding." s)
  else (none, s)

/-- `_get_next_version` plus the caller's assignment
`release_metadata.new_version = _get_next_version(...)`: parsing the current
version and incrementing it are delegated to the external `pg.version` library,
represented by the `parseOk`/`incrementOk`/`nextVersion` oracles; either
failure is reported through `_print_error_and_exit`. -/
def get_next_version (env : Env) (s : S) : Option Err × S :=
  if !env.parseOk then
    (some (Err.exit 1 ExitKind.invalidVersionFormat),
      print_error "Version string has invalid format" s)
  else if !env.incrementOk then
    (some (Err.exit 1 ExitKind.versionIncrementConflict),
      print_error "Cannot increment version" s)
  else
    let s := printOut ("Current version: " ++ s.md.currentVersion) s
    let s := printOut ("New version: " ++ env.nextVersion) s
    (none, { s with md := { s.md with newVersion := some env.nextVersion } })

/-- `_check_if_tag_with_new_version_already_exists`: a direct tag-list query
(`git tag -l <new_version>`) that aborts when the tag already exists. -/
def check_if_tag_with_new_version_already_exists (s : S) : Option Err × S :=
  if s.md.newVersion.getD "" ∈ s.world.repo.tags then
    (some (Err.exit 1 ExitKind.tagAlreadyExists),
      print_error ("Repository already contains tag " ++ s.md.newVersion.getD ""
        ++ ", indicating that such a version is already released.") s)
  else (none, s)

/-- `_prompt_to_proceed`: a response that `strtobool` does not accept as
affirmative (a negative answer or a `ValueError`) aborts with `"Aborting."`
and the distinguished exit status `PROMPT_NO_EXIT_STATUS`. -/
def prompt_to_proceed (env : Env) (s : S) : Option Err × S :=
  if env.promptAffirmative then (none, s)
  else (some (Err.exit PROMPT_NO_EXIT_STATUS ExitKind.userDeclined),
    print_error "Aborting." s)

/-- `_get_release_notes_and_modify_changelog_first_header`: reads the
changelog, runs the pure `modifyChangelog` core, stores the extracted notes on
the metadata (printing the replacement announcement) and writes the rewritten
document back unless the dry-run early return fired. -/
def get_release_notes_and_modify_changelog_first_header (s : S) : Option Err × S :=
  let r := modifyChangelog (s.md.newVersion.getD "") s.md.releasedVersions
    s.md.opts.dryRun s.world.changelog
  let s :=
    match r.1 with
    | some notes =>
      printOut "Replacing header name in the changelog with the new version"
        { s with md := { s.md with newVersionReleaseNotes := notes } }
    | none => s
  match r.2 with
  | some doc2 => (none, { s with world := { s.world with changelog := doc2 } })
  | none => (none, s)

/-- `_update_version_and_release_date_in_config`: assigns the new version and
release date to the shared in-memory `pg.config` object, prints the
announcement, then (unless dry-run) rewrites the config file's entry lines,
aborting with the missing-entries error when any entry was never found (the
file is not written in that case). -/
def update_version_and_release_date_in_config (env : Env) (s : S) : Option Err × S :=
  let newVersion := s.md.newVersion.getD ""
  let newReleaseDate := env.releaseDate
  let s := { s with world := { s.world with
    pluginVersion := newVersion
    pluginVersionReleaseDate := newReleaseDate } }
  let s := printOut
    "Modifying the following entries in the config file: PLUGIN_VERSION, PLUGIN_VERSION_RELEASE_DATE" s
  if s.md.opts.dryRun then (none, s)
  else
    let r := scanLines
      [("PLUGIN_VERSION", newVersion), ("PLUGIN_VERSION_RELEASE_DATE", newReleaseDate)]
      s.world.configLines
    if !r.2.isEmpty then
      (some (Err.exit 1 ExitKind.missingConfigEntries),
        print_error "Error: missing entries in the config file" s)
    else (none, { s with world := { s.world with configLines := r.1 } })

/-- `_create_release_commit` for either repository (`ghPages` selects which):
stage everything, commit with the release message, then amend to fold in any
hook-introduced changes; the net effect is one fresh commit and a clean tree. -/
def create_release_commit (env : Env) (ghPages : Bool) (s : S) : Option Err × S :=
  let branch := if ghPages then s.world.ghPagesRepo.activeBranch else s.world.repo.activeBranch
  let s := printOut ("Creating release commit from branch " ++ branch) s
  if s.md.opts.dryRun then (none, s)
  else if ghPages then
    if env.ghPagesCommitFails then (some (Err.exc ExcKind.gitCommand), s)
    else (none, { s with world := { s.world with ghPagesRepo :=
      { s.world.ghPagesRepo with headId := env.newGhPagesCommitId, hasLocalChanges := false } } })
  else
    if env.commitFails then (some (Err.exc ExcKind.gitCommand), s)
    else (none, { s with world := { s.world with repo :=
      { s.world.repo with headId := env.newCommitId, hasLocalChanges := false } } })

/-- `_create_release_tag`: creates the annotated tag named exactly
`new_version` on the main repository. -/
def create_release_tag (env : Env) (s : S) : Option Err × S :=
  let s := printOut ("Creating tag " ++ s.md.newVersion.getD "") s
  if s.md.opts.dryRun then (none, s)
  else if env.tagFails then (some (Err.exc ExcKind.gitCommand), s)
  else (none, { s with world := { s.world with repo :=
    { s.world.repo with tags := s.world.repo.tags ++ [s.md.newVersion.getD ""] } } })

/-- `_prepare_gh_pages_for_update`: wholesale replaces the designated
subdirectories of the gh-pages working tree from its `dev` staging area
(a delete-then-copy, leaving the tree with local changes to commit). -/
def prepare_gh_pages_for_update (env : Env) (s : S) : Option Err × S :=
  let s := printOut ("Preparing branch " ++ s.world.ghPagesRepo.activeBranch ++ " for update") s
  if s.md.opts.dryRun then (none, s)
  else if env.prepareGhPagesFails then (some (Err.exc ExcKind.osError), s)
  else (none, { s with world := { s.world with ghPagesRepo :=
    { s.world.ghPagesRepo with hasLocalChanges := true } } })

/-- `_make_installers`: removes any pre-existing output directory, then invokes
the external artifact builder, which repopulates it. -/
def make_installers (env : Env) (s : S) : Option Err × S :=
  let s := printOut "Creating installers" s
  if s.md.opts.dryRun then (none, s)
  else if s.world.installersDirExists && env.rmtreeFails then
    (some (Err.exc ExcKind.osError), s)
  else
    let s := { s with world := { s.world with installersDirExists := false } }
    if env.buildFails then (some (Err.exc ExcKind.build), s)
    else (none, { s with world := { s.world with installersDirExists := true } })

/-- `_push_release_commit` for the main repository (to the configured remote
branch). -/
def push_release_commit_main (env : Env) (s : S) : Option Err × S :=
  let s := printOut ("Pushing release commit from branch " ++ s.world.repo.activeBranch) s
  if s.md.opts.dryRun then (none, s)
  else if env.pushMainFails then (some (Err.exc ExcKind.gitCommand), s)
  else (none, { s with world := { s.world with pushedMainBranch := true } })

/-- `_push_release_tag`. -/
def push_release_tag (env : Env) (s : S) : Option Err × S :=
  let s := printOut ("Pushing tag " ++ s.md.newVersion.getD "") s
  if s.md.opts.dryRun then (none, s)
  else if env.pushTagFails then (some (Err.exc ExcKind.gitCommand), s)
  else (none, { s with world := { s.world with pushedTag := true } })

/-- `_push_release_commit` for the gh-pages repository (to its own branch). -/
def push_release_commit_gh_pages (env : Env) (s : S) : Option Err × S :=
  let s := printOut ("Pushing release commit from branch " ++ s.world.ghPagesRepo.activeBranch) s
  if s.md.opts.dryRun then (none, s)
  else if env.pushGhPagesFails then (some (Err.exc ExcKind.gitCommand), s)
  else (none, { s with world := { s.world with pushedGhPages := true } })

/-- `_create_github_release` followed by `_upload_installers_to_github`: posts
the release object to the GitHub API (raising on a non-success status), then
uploads the recognized artifact files, any upload failure aborting the rest. -/
def create_github_release (env : Env) (s : S) : Option Err × S :=
  let s := printOut "Creating GitHub release" s
  if s.md.opts.dryRun then (none, s)
  else if env.publishFails then (some (Err.exc ExcKind.http), s)
  else
    let s := { s with world := { s.world with githubReleaseCreated := true } }
    if env.uploadFails then (some (Err.exc ExcKind.http), s)
    else (none, { s with world := { s.world with assetsUploaded := true } })

/-- `_make_release`: the fixed step sequence. -/
def run_make_release (env : Env) (s : S) : Option Err × S :=
  andThen (check_branches_for_local_changes s) fun s =>
  let s := printOut ("Active branch: " ++ s.world.repo.activeBranch) s
  andThen (get_next_version env s) fun s =>
  andThen (check_if_tag_with_new_version_already_exists s) fun s =>
  andThen (if s.md.opts.interactive then prompt_to_proceed env s else (none, s)) fun s =>
  andThen (get_release_notes_and_modify_changelog_first_header s) fun s =>
  andThen (update_version_and_release_date_in_config env s) fun s =>
  andThen (create_release_commit env false s) fun s =>
  andThen (create_release_tag env s) fun s =>
  andThen (prepare_gh_pages_for_update env s) fun s =>
  andThen (create_release_commit env true s) fun s =>
  andThen (make_installers env s) fun s =>
  andThen (push_release_commit_main env s) fun s =>
  andThen (push_release_tag env s) fun s =>
  andThen (push_release_commit_gh_pages env s) fun s =>
  create_github_release env s

/-- `_rollback`: a no-op on a dry-run context; otherwise deletes the release
tag — swallowing the `git.GitCommandError` a missing tag raises, so the tag
list simply loses the tag when present — then removes the installers output
directory if it exists, then hard-resets both repositories to the checkpoint
commit ids captured at metadata construction.  Failures of the directory
removal or of either reset are not caught and propagate. -/
def rollback (env : Env) (s : S) : Option Err × S :=
  if s.md.opts.dryRun then (none, s)
  else
    let s := { s with world := { s.world with repo :=
      { s.world.repo with tags := s.world.repo.tags.erase (s.md.newVersion.getD "") } } }
    if s.world.installersDirExists && env.rmtreeFails then
      (some (Err.exc ExcKind.osError), s)
    else
      let s := { s with world := { s.world with installersDirExists := false } }
      if env.resetMainFails then (some (Err.exc ExcKind.gitCommand), s)
      else
        let s := { s with world := { s.world with repo :=
          { s.world.repo with headId := s.md.lastCommitIdBeforeRelease, hasLocalChanges := false } } }
        if env.resetGhPagesFails then (some (Err.exc ExcKind.gitCommand), s)
        else
          (none, { s with world := { s.world with ghPagesRepo :=
            { s.world.ghPagesRepo with
              headId := s.md.lastGhPagesCommitIdBeforeRelease,
              hasLocalChanges := false } } })

/-- The error banner `make_release` prints before rolling back on a caught
exception (the traceback text is not modelled). -/
def ERROR_BANNER : String :=
  "The following error has occurred. Performing rollback and aborting."

/-- The banner the SIGINT handler prints before rolling back. -/
def SIGINT_BANNER : String :=
  "Performing rollback and aborting."

/-- The SIGINT handler installed by `make_release`: prints its banner, invokes
the shared `rollback` routine on the current state and exits with status 1
(an error escaping the rollback also terminates the process abnormally, again
with a nonzero status). -/
def handle_sigint (env : Env) (s : S) : Nat × World :=
  let s := print_error SIGINT_BANNER s
  let r := rollback env s
  (1, r.2.world)

/-- `make_release`: constructs the metadata (capturing the checkpoints), runs
the step sequence and dispatches on the outcome.  A normal return exits the
process with status 0.  A `SystemExit` of status `st` is not an `Exception`,
so it escapes the `except Exception` handler and terminates the process with
status `st` — without any rollback.  An ordinary exception is caught: the
error banner is printed, the shared `rollback` routine runs, and the process
exits with status 1 (also when the rollback itself fails).  Returns the final
process exit status and the final world. -/
def make_release (env : Env) (opts : Opts) (w : World) : Nat × World :=
  let s : S := { world := w, md := mkReleaseMetadata opts w }
  match run_make_release env s with
  | (none, s1) => (0, s1.world)
  | (some (Err.exit st _), s1) => (st, s1.world)
  | (some (Err.exc _), s1) =>
    let s2 := print_error ERROR_BANNER s1
    let r := rollback env s2
    (1, r.2.world)

/-! ### Step invariants

Two invariants hold of every step of the sequence: the metadata's checkpoint
commit ids and read-only options are never modified, and under dry-run the
observable world outside stdout/stderr and the in-memory `pg.config` fields is
never modified.  A third invariant: any `SystemExit` raised carries status 1
or 2. -/

/-- The metadata fields that no step may modify: the two rollback checkpoints
and the read-only options. -/
def mdPres (m m' : Metadata) : Prop :=
  m'.lastCommitIdBeforeRelease = m.lastCommitIdBeforeRelease ∧
  m'.lastGhPagesCommitIdBeforeRelease = m.lastGhPagesCommitIdBeforeRelease ∧
  m'.opts = m.opts

/-- Equality of the two worlds on everything except stdout/stderr and the
in-memory `pg.config` fields: both repositories, both tracked files, the
installers directory and all remote-side effects. -/
def worldFrame (w w' : World) : Prop :=
  w'.repo = w.repo ∧ w'.ghPagesRepo = w.ghPagesRepo ∧ w'.changelog = w.changelog ∧
  w'.configLines = w.configLines ∧ w'.installersDirExists = w.installersDirExists ∧
  w'.pushedMainBranch = w.pushedMainBranch ∧ w'.pushedTag = w.pushedTag ∧
  w'.pushedGhPages = w.pushedGhPages ∧ w'.githubReleaseCreated = w.githubReleaseCreated ∧
  w'.assetsUploaded = w.assetsUploaded

/-- The master step invariant: checkpoints/options preserved, and under
dry-run the world frame preserved. -/
def stepPres (s s' : S) : Prop :=
  mdPres s.md s'.md ∧ (s.md.opts.dryRun = true → worldFrame s.world s'.world)

theorem mdPres_refl (m : Metadata) : mdPres m m := ⟨rfl, rfl, rfl⟩

theorem worldFrame_refl (w : World) : worldFrame w w :=
  ⟨rfl, rfl, rfl, rfl, rfl, rfl, rfl, rfl, rfl, rfl⟩

theorem stepPres_refl (s : S) : stepPres s s :=
  ⟨mdPres_refl s.md, fun _ => worldFrame_refl s.world⟩

theorem mdPres_trans {a b c : Metadata} (h1 : mdPres a b) (h2 : mdPres b c) : mdPres a c := by
  obtain ⟨x1, y1, z1⟩ := h1
  obtain ⟨x2, y2, z2⟩ := h2
  exact ⟨x2.trans x1, y2.trans y1, z2.trans z1⟩

theorem worldFrame_trans {a b c : World} (h1 : worldFrame a b) (h2 : worldFrame b c) :
    worldFrame a c := by
  obtain ⟨x1, y1, z1, u1, v1, p1, q1, r1, g1, a1⟩ := h1
  obtain ⟨x2, y2, z2, u2, v2, p2, q2, r2, g2, a2⟩ := h2
  exact ⟨x2.trans x1, y2.trans y1, z2.trans z1, u2.trans u1, v2.trans v1,
    p2.trans p1, q2.trans q1, r2.trans r1, g2.trans g1, a2.trans a1⟩

theorem stepPres_trans {a b c : S} (h1 : stepPres a b) (h2 : stepPres b c) : stepPres a c := by
  refine ⟨mdPres_trans h1.1 h2.1, fun hd => ?_⟩
  have hb : b.md.opts.dryRun = true := by rw [h1.1.2.2]; exact hd
  exact worldFrame_trans (h1.2 hd) (h2.2 hb)

theorem stepPres_andThen {r : Option Err × S} {f : S → Option Err × S} {s : S}
    (h1 : stepPres s r.2) (h2 : ∀ s', stepPres s' (f s').2) :
    stepPres s (andThen r f).2 := by
  obtain ⟨e, s1⟩ := r
  cases e with
  | none => exact stepPres_trans h1 (h2 s1)
  | some e => exact h1

theorem stepPres_printOut (msg : String) (s : S) : stepPres s (printOut msg s) :=
  ⟨mdPres_refl _, fun _ => worldFrame_refl _⟩

theorem stepPres_print_error (msg : String) (s : S) : stepPres s (print_error msg s) :=
  ⟨mdPres_refl _, fun _ => worldFrame_refl _⟩

theorem stepPres_check_branches (s : S) :
    stepPres s (check_branches_for_local_changes s).2 := by
  unfold check_branches_for_local_changes
  split
  · exact stepPres_print_error _ s
  · split
    · exact stepPres_print_error _ s
    · exact stepPres_refl s

theorem stepPres_get_next_version (env : Env) (s : S) :
    stepPres s (get_next_version env s).2 := by
  unfold get_next_version
  split
  · exact stepPres_print_error _ s
  · split
    · exact stepPres_print_error _ s
    · exact ⟨⟨rfl, rfl, rfl⟩, fun _ => worldFrame_refl _⟩

theorem stepPres_check_tag (s : S) :
    stepPres s (check_if_tag_with_new_version_already_exists s).2 := by
  unfold check_if_tag_with_new_version_already_exists
  split
  · exact stepPres_print_error _ s
  · exact stepPres_refl s

theorem stepPres_prompt (env : Env) (s : S) : stepPres s (prompt_to_proceed env s).2 := by
  unfold prompt_to_proceed
  split
  · exact stepPres_refl s
  · exact stepPres_print_error _ s

theorem modifyChangelog_dry_none (nv : String) (rel : List String) (doc : String) :
    (modifyChangelog nv rel true doc).2 = none := by
  simp only [modifyChangelog]
  split
  · rfl
  · split
    · rfl
    · simp

theorem stepPres_changelog (s : S) :
    stepPres s (get_release_notes_and_modify_changelog_first_header s).2 := by
  constructor
  · simp only [get_release_notes_and_modify_changelog_first_header, printOut]
    split <;> (try split) <;> exact ⟨rfl, rfl, rfl⟩
  · intro hd
    simp only [get_release_notes_and_modify_changelog_first_header, printOut, hd,
      modifyChangelog_dry_none]
    split <;> exact ⟨rfl, rfl, rfl, rfl, rfl, rfl, rfl, rfl, rfl, rfl⟩

theorem stepPres_config (env : Env) (s : S) :
    stepPres s (update_version_and_release_date_in_config env s).2 := by
  constructor
  · simp only [update_version_and_release_date_in_config, printOut, print_error]
    split <;> (try split) <;> exact ⟨rfl, rfl, rfl⟩
  · intro hd
    simp only [update_version_and_release_date_in_config, printOut, hd, eq_self_iff_true,
      if_true]
    exact ⟨rfl, rfl, rfl, rfl, rfl, rfl, rfl, rfl, rfl, rfl⟩

theorem stepPres_create_commit (env : Env) (b : Bool) (s : S) :
    stepPres s (create_release_commit env b s).2 := by
  constructor
  · simp only [create_release_commit, printOut]
    split <;> (try split) <;> (try split) <;> exact ⟨rfl, rfl, rfl⟩
  · intro hd
    simp only [create_release_commit, printOut, hd, eq_self_iff_true, if_true]
    exact ⟨rfl, rfl, rfl, rfl, rfl, rfl, rfl, rfl, rfl, rfl⟩

theorem stepPres_create_tag (env : Env) (s : S) :
    stepPres s (create_release_tag env s).2 := by
  constructor
  · simp only [create_release_tag, printOut]
    split <;> (try split) <;> exact ⟨rfl, rfl, rfl⟩
  · intro hd
    simp only [create_release_tag, printOut, hd, eq_self_iff_true, if_true]
    exact ⟨rfl, rfl, rfl, rfl, rfl, rfl, rfl, rfl, rfl, rfl⟩

theorem stepPres_prepare (env : Env) (s : S) :
    stepPres s (prepare_gh_pages_for_update env s).2 := by
  constructor
  · simp only [prepare_gh_pages_for_update, printOut]
    split <;> (try split) <;> exact ⟨rfl, rfl, rfl⟩
  · intro hd
    simp only [prepare_gh_pages_for_update, printOut, hd, eq_self_iff_true, if_true]
    exact ⟨rfl, rfl, rfl, rfl, rfl, rfl, rfl, rfl, rfl, rfl⟩

theorem stepPres_installers (env : Env) (s : S) :
    stepPres s (make_installers env s).2 := by
  constructor
  · simp only [make_installers, printOut]
    split <;> (try split) <;> (try split) <;> exact ⟨rfl, rfl, rfl⟩
  · intro hd
    simp only [make_installers, printOut, hd, eq_self_iff_true, if_true]
    exact ⟨rfl, rfl, rfl, rfl, rfl, rfl, rfl, rfl, rfl, rfl⟩

theorem stepPres_push_main (env : Env) (s : S) :
    stepPres s (push_release_commit_main env s).2 := by
  constructor
  · simp only [push_release_commit_main, printOut]
    split <;> (try split) <;> exact ⟨rfl, rfl, rfl⟩
  · intro hd
    simp only [push_release_commit_main, printOut, hd, eq_self_iff_true, if_true]
    exact ⟨rfl, rfl, rfl, rfl, rfl, rfl, rfl, rfl, rfl, rfl⟩

theorem stepPres_push_tag (env : Env) (s : S) :
    stepPres s (push_release_tag env s).2 := by
  constructor
  · simp only [push_release_tag, printOut]
    split <;> (try split) <;> exact ⟨rfl, rfl, rfl⟩
  · intro hd
    simp only [push_release_tag, printOut, hd, eq_self_iff_true, if_true]
    exact ⟨rfl, rfl, rfl, rfl, rfl, rfl, rfl, rfl, rfl, rfl⟩

theorem stepPres_push_gh_pages (env : Env) (s : S) :
    stepPres s (push_release_commit_gh_pages env s).2 := by
  constructor
  · simp only [push_release_commit_gh_pages, printOut]
    split <;> (try split) <;> exact ⟨rfl, rfl, rfl⟩
  · intro hd
    simp only [push_release_commit_gh_pages, printOut, hd, eq_self_iff_true, if_true]
    exact ⟨rfl, rfl, rfl, rfl, rfl, rfl, rfl, rfl, rfl, rfl⟩

theorem stepPres_github (env : Env) (s : S) :
    stepPres s (create_github_release env s).2 := by
  constructor
  · simp only [create_github_release, printOut]
    split <;> (try split) <;> (try split) <;> exact ⟨rfl, rfl, rfl⟩
  · intro hd
    simp only [create_github_release, printOut, hd, eq_self_iff_true, if_true]
    exact ⟨rfl, rfl, rfl, rfl, rfl, rfl, rfl, rfl, rfl, rfl⟩

/-- Every step of the sequence preserves the checkpoints and options, and
under dry-run also the observable world frame. -/
theorem stepPres_run (env : Env) (s : S) : stepPres s (run_make_release env s).2 := by
  unfold run_make_release
  apply stepPres_andThen (stepPres_check_branches s)
  intro s1
  apply stepPres_andThen
    (stepPres_trans (stepPres_printOut _ s1) (stepPres_get_next_version env _))
  intro s2
  apply stepPres_andThen (stepPres_check_tag s2)
  intro s3
  have hp : stepPres s3
      (if s3.md.opts.interactive then prompt_to_proceed env s3 else (none, s3)).2 := by
    split
    · exact stepPres_prompt env s3
    · exact stepPres_refl s3
  apply stepPres_andThen hp
  intro s4
  apply stepPres_andThen (stepPres_changelog s4)
  intro s5
  apply stepPres_andThen (stepPres_config env s5)
  intro s6
  apply stepPres_andThen (stepPres_create_commit env false s6)
  intro s7
  apply stepPres_andThen (stepPres_create_tag env s7)
  intro s8
  apply stepPres_andThen (stepPres_prepare env s8)
  intro s9
  apply stepPres_andThen (stepPres_create_commit env true s9)
  intro s10
  apply stepPres_andThen (stepPres_installers env s10)
  intro s11
  apply stepPres_andThen (stepPres_push_main env s11)
  intro s12
  apply stepPres_andThen (stepPres_push_tag env s12)
  intro s13
  apply stepPres_andThen (stepPres_push_gh_pages env s13)
  intro s14
  exact stepPres_github env s14

/-- Any `SystemExit` the step sequence can raise carries status 1 or status 2
(`PROMPT_NO_EXIT_STATUS`); in particular it is never 0. -/
def errNonzero : Option Err → Prop
  | some (Err.exit st _) => st = 1 ∨ st = 2
  | _ => True

theorem errNonzero_andThen {r : Option Err × S} {f : S → Option Err × S}
    (h1 : errNonzero r.1) (h2 : ∀ s', errNonzero (f s').1) :
    errNonzero (andThen r f).1 := by
  obtain ⟨e, s1⟩ := r
  cases e with
  | none => exact h2 s1
  | some e => exact h1

theorem errNonzero_check_branches (s : S) :
    errNonzero (check_branches_for_local_changes s).1 := by
  simp only [check_branches_for_local_changes, print_error]
  split <;> (try split) <;> first | exact Or.inl rfl | trivial

theorem errNonzero_get_next_version (env : Env) (s : S) :
    errNonzero (get_next_version env s).1 := by
  simp only [get_next_version, printOut, print_error]
  split <;> (try split) <;> first | exact Or.inl rfl | trivial

theorem errNonzero_check_tag (s : S) :
    errNonzero (check_if_tag_with_new_version_already_exists s).1 := by
  simp only [check_if_tag_with_new_version_already_exists, print_error]
  split <;> first | exact Or.inl rfl | trivial

theorem errNonzero_prompt (env : Env) (s : S) :
    errNonzero (prompt_to_proceed env s).1 := by
  simp only [prompt_to_proceed, print_error]
  split <;> first | exact Or.inr rfl | trivial

theorem errNonzero_changelog (s : S) :
    errNonzero (get_release_notes_and_modify_changelog_first_header s).1 := by
  simp only [get_release_notes_and_modify_changelog_first_header, printOut]
  split <;> trivial

theorem errNonzero_config (env : Env) (s : S) :
    errNonzero (update_version_and_release_date_in_config env s).1 := by
  simp only [update_version_and_release_date_in_config, printOut, print_error]
  split <;> (try split) <;> first | exact Or.inl rfl | trivial

theorem errNonzero_create_commit (env : Env) (b : Bool) (s : S) :
    errNonzero (create_release_commit env b s).1 := by
  simp only [create_release_commit, printOut]
  split <;> (try split) <;> (try split) <;> trivial

theorem errNonzero_create_tag (env : Env) (s : S) :
    errNonzero (create_release_tag env s).1 := by
  simp only [create_release_tag, printOut]
  split <;> (try split) <;> trivial

theorem errNonzero_prepare (env : Env) (s : S) :
    errNonzero (prepare_gh_pages_for_update env s).1 := by
  simp only [prepare_gh_pages_for_update, printOut]
  split <;> (try split) <;> trivial

theorem errNonzero_installers (env : Env) (s : S) :
    errNonzero (make_installers env s).1 := by
  simp only [make_installers, printOut]
  split <;> (try split) <;> (try split) <;> trivial

theorem errNonzero_push_main (env : Env) (s : S) :
    errNonzero (push_release_commit_main env s).1 := by
  simp only [push_release_commit_main, printOut]
  split <;> (try split) <;> trivial

theorem errNonzero_push_tag (env : Env) (s : S) :
    errNonzero (push_release_tag env s).1 := by
  simp only [push_release_tag, printOut]
  split <;> (try split) <;> trivial

theorem errNonzero_push_gh_pages (env : Env) (s : S) :
    errNonzero (push_release_commit_gh_pages env s).1 := by
  simp only [push_release_commit_gh_pages, printOut]
  split <;> (try split) <;> trivial

theorem errNonzero_github (env : Env) (s : S) :
    errNonzero (create_github_release env s).1 := by
  simp only [create_github_release, printOut]
  split <;> (try split) <;> (try split) <;> trivial

/-- Every abnormal outcome of the step sequence that is a `SystemExit` carries
status 1 or 2. -/
theorem errNonzero_run (env : Env) (s : S) : errNonzero (run_make_release env s).1 := by
  unfold run_make_release
  apply errNonzero_andThen (errNonzero_check_branches s)
  intro s1
  apply errNonzero_andThen (errNonzero_get_next_version env _)
  intro s2
  apply errNonzero_andThen (errNonzero_check_tag s2)
  intro s3
  have hp : errNonzero
      (if s3.md.opts.interactive then prompt_to_proceed env s3 else (none, s3)).1 := by
    split
    · exact errNonzero_prompt env s3
    · trivial
  apply errNonzero_andThen hp
  intro s4
  apply errNonzero_andThen (errNonzero_changelog s4)
  intro s5
  apply errNonzero_andThen (errNonzero_config env s5)
  intro s6
  apply errNonzero_andThen (errNonzero_create_commit env false s6)
  intro s7
  apply errNonzero_andThen (errNonzero_create_tag env s7)
  intro s8
  apply errNonzero_andThen (errNonzero_prepare env s8)
  intro s9
  apply errNonzero_andThen (errNonzero_create_commit env true s9)
  intro s10
  apply errNonzero_andThen (errNonzero_installers env s10)
  intro s11
  apply errNonzero_andThen (errNonzero_push_main env s11)
  intro s12
  apply errNonzero_andThen (errNonzero_push_tag env s12)
  intro s13
  apply errNonzero_andThen (errNonzero_push_gh_pages env s13)
  intro s14
  exact errNonzero_github env s14

/-! ### Shared concrete sample data for witnesses and counterexamples -/

/-- A clean main repository with one released tag. -/
def sampleRepo : Repo :=
  { headId := "aaa111", tags := ["0.1.0"], hasLocalChanges := false, activeBranch := "develop" }

/-- A clean gh-pages repository. -/
def sampleDocsRepo : Repo :=
  { headId := "bbb222", tags := [], hasLocalChanges := false, activeBranch := "gh-pages" }

/-- A starting world with an unreleased changelog section and both config
entries present. -/
def sampleWorld : World :=
  { repo := sampleRepo, ghPagesRepo := sampleDocsRepo,
    changelog := "# Unreleased\n- change one\n",
    configLines := ["c.PLUGIN_VERSION = \"3.3\"\n", "c.PLUGIN_VERSION_RELEASE_DATE = \"June 1, 2019\"\n"],
    pluginVersion := "3.3", pluginVersionReleaseDate := "June 1, 2019",
    authorName := "khalim19", repositoryName := "gimp-plugin-export-layers",
    installersDirExists := false, pushedMainBranch := false, pushedTag := false,
    pushedGhPages := false, githubReleaseCreated := false, assetsUploaded := false,
    stdoutLines := [], stderrLines := [] }

/-- Default non-interactive, non-dry options. -/
def sampleOpts : Opts :=
  { releaseType := "minor", githubAccessToken := "token", force := false,
    installers := ["all"], dryRun := false, prerelease := none,
    remoteName := "origin", remoteBranch := "master", interactive := false }

/-- An environment in which every external operation succeeds. -/
def sampleEnv : Env :=
  { parseOk := true, incrementOk := true, nextVersion := "3.4",
    promptAffirmative := true, releaseDate := "October 12, 2026",
    newCommitId := "ccc333", newGhPagesCommitId := "ddd444",
    commitFails := false, ghPagesCommitFails := false, tagFails := false,
    prepareGhPagesFails := false, buildFails := false, pushMainFails := false,
    pushTagFails := false, pushGhPagesFails := false, publishFails := false,
    uploadFails := false, rmtreeFails := false, resetMainFails := false,
    resetGhPagesFails := false }

/-- The initial process state of a run on the sample inputs. -/
def sampleS : S := { world := sampleWorld, md := mkReleaseMetadata sampleOpts sampleWorld }

/-! ### Shared lemmas about `rollback` -/

/-- On a dry-run context `_rollback` returns immediately. -/
theorem rollback_dry_noop (env : Env) (s : S) (h : s.md.opts.dryRun = true) :
    rollback env s = (none, s) := by
  simp [rollback, h]

/-! ### Claim C9 -/

/-- C9: for every context with `dry_run` set, the rollback routine is a no-op:
even when triggered, it returns immediately without attempting tag deletion,
output-directory removal, or repository resets — the state is returned
unchanged. -/
theorem C9_theorem (env : Env) (s : S) (h : s.md.opts.dryRun = true) :
    rollback env s = (none, s) := by
  simp [rollback, h]

/-- The dry-run variant of the sample options. -/
def sampleDryOpts : Opts := { sampleOpts with dryRun := true }

/-- The initial process state of a dry run on the sample inputs. -/
def sampleDryS : S := { world := sampleWorld, md := mkReleaseMetadata sampleDryOpts sampleWorld }

/-- Witness for C9 at a concrete dry-run state. -/
theorem C9_witness :
    sampleDryS.md.opts.dryRun = true ∧ rollback sampleEnv sampleDryS = (none, sampleDryS) :=
  ⟨rfl, C9_theorem sampleEnv sampleDryS rfl⟩

/-! ### Claim C10 -/

/-- C10: for every run, including dry runs, the config-update step assigns the
new version string and the new release date to the shared in-memory
configuration object's `PLUGIN_VERSION` and `PLUGIN_VERSION_RELEASE_DATE`
fields; this happens before the dry-run early return, and in a dry run the
config file's lines are left untouched and the step succeeds. -/
theorem C10_theorem (env : Env) (s : S) :
    ((update_version_and_release_date_in_config env s).2.world.pluginVersion
        = s.md.newVersion.getD ""
      ∧ (update_version_and_release_date_in_config env s).2.world.pluginVersionReleaseDate
        = env.releaseDate)
    ∧ (s.md.opts.dryRun = true →
        (update_version_and_release_date_in_config env s).1 = none
        ∧ (update_version_and_release_date_in_config env s).2.world.configLines
            = s.world.configLines) := by
  constructor
  · simp only [update_version_and_release_date_in_config, printOut, print_error]
    split <;> (try split) <;> exact ⟨rfl, rfl⟩
  · intro hd
    simp [update_version_and_release_date_in_config, printOut, hd]

/-- Witness for C10 at a concrete dry-run state. -/
theorem C10_witness :
    (update_version_and_release_date_in_config sampleEnv sampleDryS).2.world.pluginVersion
      = sampleDryS.md.newVersion.getD ""
    ∧ sampleDryS.md.opts.dryRun = true
    ∧ (update_version_and_release_date_in_config sampleEnv sampleDryS).2.world.configLines
        = sampleWorld.configLines :=
  ⟨(C10_theorem sampleEnv sampleDryS).1.1, rfl, ((C10_theorem sampleEnv sampleDryS).2 rfl).2⟩

/-! ### Claim C2 -/

/-- C2: on a non-dry-run context the rollback routine deletes the tag named
`new_version` (tolerating its absence — the deletion is unconditional and only
its own git error is swallowed, so the tag list is simply the original list
with the tag erased, whether or not it was present), removes the
built-artifact output directory, and hard-resets both repositories to the
checkpoint commit identifiers captured at context construction; an error
injected into the directory removal or either reset propagates out of the
rollback; and the checkpoint identifiers are never modified by the step
sequence. -/
theorem C2_theorem (env : Env) (s : S) (h : s.md.opts.dryRun = false) :
    (env.rmtreeFails = false → env.resetMainFails = false → env.resetGhPagesFails = false →
      rollback env s = (none, { s with world := { s.world with
        repo := { s.world.repo with
          tags := s.world.repo.tags.erase (s.md.newVersion.getD ""),
          headId := s.md.lastCommitIdBeforeRelease,
          hasLocalChanges := false },
        ghPagesRepo := { s.world.ghPagesRepo with
          headId := s.md.lastGhPagesCommitIdBeforeRelease,
          hasLocalChanges := false },
        installersDirExists := false } }))
    ∧ (env.rmtreeFails = true → s.world.installersDirExists = true →
        (rollback env s).1 = some (Err.exc ExcKind.osError))
    ∧ (env.rmtreeFails = false → env.resetMainFails = true →
        (rollback env s).1 = some (Err.exc ExcKind.gitCommand))
    ∧ (env.rmtreeFails = false → env.resetMainFails = false → env.resetGhPagesFails = true →
        (rollback env s).1 = some (Err.exc ExcKind.gitCommand))
    ∧ ((run_make_release env s).2.md.lastCommitIdBeforeRelease
          = s.md.lastCommitIdBeforeRelease
        ∧ (run_make_release env s).2.md.lastGhPagesCommitIdBeforeRelease
          = s.md.lastGhPagesCommitIdBeforeRelease) := by
  refine ⟨?_, ?_, ?_, ?_, ?_⟩
  · intro h1 h2 h3
    simp [rollback, h, h1, h2, h3]
  · intro h1 h2
    simp [rollback, h, h1, h2]
  · intro h1 h2
    simp [rollback, h, h1, h2]
  · intro h1 h2 h3
    simp [rollback, h, h1, h2, h3]
  · have hp := (stepPres_run env s).1
    exact ⟨hp.1, hp.2.1⟩

/-- A world as it looks after the tagging step of a run on the sample inputs. -/
def taggedWorld : World :=
  { sampleWorld with
    installersDirExists := true,
    repo := { sampleRepo with tags := ["0.1.0", "3.4"], headId := "ccc333" } }

/-- The metadata of a sample run after the version was computed. -/
def taggedMd : Metadata :=
  { mkReleaseMetadata sampleOpts sampleWorld with newVersion := some "3.4" }

/-- The state after the tagging step of a run on the sample inputs. -/
def taggedS : S := { world := taggedWorld, md := taggedMd }

/-- Witness for C2 at a concrete non-dry-run state reached after tagging:
rollback drops the new tag, removes the output directory and restores both
checkpoints. -/
def rolledBackS : S :=
  { world :=
      { sampleWorld with
        repo := { sampleRepo with tags := ["0.1.0"], headId := "aaa111" } },
    md := taggedMd }

theorem C2_witness :
    taggedS.md.opts.dryRun = false
    ∧ rollback sampleEnv taggedS = (none, rolledBackS) := by
  refine ⟨rfl, ?_⟩
  have h := (C2_theorem sampleEnv taggedS rfl).1 rfl rfl rfl
  rw [h]
  decide

/-! ### Claim C1 -/

/-- The environment of a run whose artifact build fails. -/
def buildFailEnv : Env := { sampleEnv with buildFails := true }

/-- The environment of a run whose computed version already exists as a tag. -/
def tagExistsEnv : Env := { sampleEnv with nextVersion := "0.1.0" }

/-- A starting world in which the installers output directory already exists. -/
def dirWorld : World := { sampleWorld with installersDirExists := true }

/-- The initial state of a run on `dirWorld`. -/
def dirS : S := { world := dirWorld, md := mkReleaseMetadata sampleOpts dirWorld }

/-- Counterexample to C1 as stated: on this non-dry run the computed version
already exists as a tag, a fatal kind (`TagAlreadyExists`, which is not
`UserDeclined`) occurs, and the process terminates with status 1 — but the
shared rollback routine is *not* invoked: the `SystemExit` raised by
`_print_error_and_exit` is not an `Exception`, so it escapes the
`except Exception` handler that performs the rollback.  Observably, the
pre-existing installers output directory survives (the final world still has
it), whereas invoking the rollback routine on the final state would have
removed it. -/
theorem C1_counterexample :
    (run_make_release tagExistsEnv dirS).1 = some (Err.exit 1 ExitKind.tagAlreadyExists)
    ∧ ExitKind.tagAlreadyExists ≠ ExitKind.userDeclined
    ∧ (make_release tagExistsEnv sampleOpts dirWorld).1 = 1
    ∧ (make_release tagExistsEnv sampleOpts dirWorld).2.installersDirExists = true
    ∧ (rollback tagExistsEnv
        { world := (make_release tagExistsEnv sampleOpts dirWorld).2,
          md := (run_make_release tagExistsEnv dirS).2.md }).2.world.installersDirExists
      = false := by
  refine ⟨by decide, by decide, by decide, by decide, by decide⟩

/-- C1 (amended): whenever the step sequence fails, the process exits with a
non-zero status; when the failure is an ordinary exception (the kinds
`VersionControlCommandFailed`, `ArtifactBuildFailed`, `PublishRequestFailed`,
`AssetUploadFailed`), the `except Exception` handler prints the error banner,
invokes the shared rollback routine and exits with status 1; when the failure
is reported through `_print_error_and_exit` (the kinds `DirtyWorkingTree`,
`InvalidVersionFormat`, `VersionIncrementConflict`, `TagAlreadyExists`,
`MissingConfigEntries`, `UserDeclined`), the `SystemExit` escapes that handler
and the process exits with the raised status (1, or 2 for the user-declined
prompt) without any rollback; and the interrupt handler invokes the same
`rollback` routine as the exception path, also exiting non-zero. -/
theorem C1_theorem :
    (∀ (env : Env) (opts : Opts) (w : World),
      (run_make_release env { world := w, md := mkReleaseMetadata opts w }).1.isSome = true →
        (make_release env opts w).1 ≠ 0)
    ∧ (∀ (env : Env) (opts : Opts) (w : World) (k : ExcKind) (s1 : S),
        run_make_release env { world := w, md := mkReleaseMetadata opts w }
          = (some (Err.exc k), s1) →
        make_release env opts w
          = (1, (rollback env (print_error ERROR_BANNER s1)).2.world))
    ∧ (∀ (env : Env) (opts : Opts) (w : World) (st : Nat) (k : ExitKind) (s1 : S),
        run_make_release env { world := w, md := mkReleaseMetadata opts w }
          = (some (Err.exit st k), s1) →
        make_release env opts w = (st, s1.world))
    ∧ (∀ (env : Env) (s : S),
        handle_sigint env s = (1, (rollback env (print_error SIGINT_BANNER s)).2.world)) := by
  refine ⟨?_, ?_, ?_, ?_⟩
  · intro env opts w h
    have hnz := errNonzero_run env { world := w, md := mkReleaseMetadata opts w }
    rcases hr : run_make_release env { world := w, md := mkReleaseMetadata opts w }
      with ⟨e, s1⟩
    rw [hr] at hnz h
    simp only [make_release, hr]
    cases e with
    | none => simp at h
    | some e =>
      cases e with
      | exit st k =>
        simp only [errNonzero] at hnz
        rcases hnz with h1 | h1 <;> simp [h1]
      | exc k => simp
  · intro env opts w k s1 hr
    simp only [make_release, hr]
  · intro env opts w st k s1 hr
    simp only [make_release, hr]
  · intro env s
    rfl

/-- Witness for C1 at a concrete failing run (the artifact build fails): the
run fails, the exit status is non-zero, the final world is the rollback of the
post-failure state, and the interrupt handler produces the same rollback. -/
theorem C1_witness :
    (run_make_release buildFailEnv sampleS).1.isSome = true
    ∧ (make_release buildFailEnv sampleOpts sampleWorld).1 ≠ 0
    ∧ make_release buildFailEnv sampleOpts sampleWorld
        = (1, (rollback buildFailEnv
            (print_error ERROR_BANNER (run_make_release buildFailEnv sampleS).2)).2.world)
    ∧ handle_sigint buildFailEnv sampleS
        = (1, (rollback buildFailEnv (print_error SIGINT_BANNER sampleS)).2.world) :=
  ⟨by decide,
   C1_theorem.1 buildFailEnv sampleOpts sampleWorld (by decide),
   C1_theorem.2.1 buildFailEnv sampleOpts sampleWorld ExcKind.build
     (run_make_release buildFailEnv sampleS).2 (by decide),
   C1_theorem.2.2.2 buildFailEnv sampleS⟩

/-! ### Claim C3 -/

/-- C3: a run with `dry_run` set performs no mutation observable in either
repository, in the changelog or config files, in the installers output
directory, or on the remote side (`worldFrame` is exactly that frame; only
stdout/stderr and the in-memory `pg.config` fields may change) — whatever the
environment and starting world, and whether the run succeeds, aborts or rolls
back.  Moreover each mutating step under dry-run is exactly the log-and-return
no-op: it prints its intended action and returns successfully with no other
effect; the changelog step records no file write and the config step leaves
the file lines untouched. -/
theorem C3_theorem :
    (∀ (env : Env) (opts : Opts) (w : World), opts.dryRun = true →
        worldFrame w (make_release env opts w).2)
    ∧ (∀ (env : Env) (s : S), s.md.opts.dryRun = true →
        create_release_commit env false s
            = (none, printOut ("Creating release commit from branch "
                ++ s.world.repo.activeBranch) s)
        ∧ create_release_commit env true s
            = (none, printOut ("Creating release commit from branch "
                ++ s.world.ghPagesRepo.activeBranch) s)
        ∧ create_release_tag env s
            = (none, printOut ("Creating tag " ++ s.md.newVersion.getD "") s)
        ∧ prepare_gh_pages_for_update env s
            = (none, printOut ("Preparing branch " ++ s.world.ghPagesRepo.activeBranch
                ++ " for update") s)
        ∧ make_installers env s = (none, printOut "Creating installers" s)
        ∧ push_release_commit_main env s
            = (none, printOut ("Pushing release commit from branch "
                ++ s.world.repo.activeBranch) s)
        ∧ push_release_tag env s
            = (none, printOut ("Pushing tag " ++ s.md.newVersion.getD "") s)
        ∧ push_release_commit_gh_pages env s
            = (none, printOut ("Pushing release commit from branch "
                ++ s.world.ghPagesRepo.activeBranch) s)
        ∧ create_github_release env s = (none, printOut "Creating GitHub release" s)
        ∧ (get_release_notes_and_modify_changelog_first_header s).1 = none
        ∧ (get_release_notes_and_modify_changelog_first_header s).2.world.changelog
            = s.world.changelog
        ∧ (update_version_and_release_date_in_config env s).1 = none
        ∧ (update_version_and_release_date_in_config env s).2.world.configLines
            = s.world.configLines) := by
  constructor
  · intro env opts w h
    have hp := stepPres_run env { world := w, md := mkReleaseMetadata opts w }
    have hw := hp.2 h
    have hmd := hp.1
    rcases hr : run_make_release env { world := w, md := mkReleaseMetadata opts w }
      with ⟨e, s1⟩
    rw [hr] at hw hmd
    simp only [make_release, hr]
    cases e with
    | none => exact hw
    | some e =>
      cases e with
      | exit st k => exact hw
      | exc k =>
        have hs2 : (print_error ERROR_BANNER s1).md.opts.dryRun = true := by
          show s1.md.opts.dryRun = true
          rw [hmd.2.2]
          exact h
        show worldFrame w (rollback env (print_error ERROR_BANNER s1)).2.world
        rw [rollback_dry_noop env _ hs2]
        exact hw
  · intro env s h
    refine ⟨?_, ?_, ?_, ?_, ?_, ?_, ?_, ?_, ?_, ?_, ?_, ?_, ?_⟩
    · simp [create_release_commit, printOut, h]
    · simp [create_release_commit, printOut, h]
    · simp [create_release_tag, printOut, h]
    · simp [prepare_gh_pages_for_update, printOut, h]
    · simp [make_installers, printOut, h]
    · simp [push_release_commit_main, printOut, h]
    · simp [push_release_tag, printOut, h]
    · simp [push_release_commit_gh_pages, printOut, h]
    · simp [create_github_release, printOut, h]
    · simp only [get_release_notes_and_modify_changelog_first_header, printOut]
      split <;> rfl
    · simp only [get_release_notes_and_modify_changelog_first_header, printOut, h,
        modifyChangelog_dry_none]
      split <;> rfl
    · simp [update_version_and_release_date_in_config, printOut, h]
    · simp [update_version_and_release_date_in_config, printOut, h]

/-- Witness for C3 at a concrete dry run on the sample inputs. -/
theorem C3_witness :
    sampleDryOpts.dryRun = true
    ∧ worldFrame sampleWorld (make_release sampleEnv sampleDryOpts sampleWorld).2
    ∧ make_installers sampleEnv sampleDryS = (none, printOut "Creating installers" sampleDryS) :=
  ⟨rfl, C3_theorem.1 sampleEnv sampleDryOpts sampleWorld rfl,
   (C3_theorem.2 sampleEnv sampleDryS rfl).2.2.2.2.1⟩

/-! ### Claim C4 -/

/-- C4: in every run that reaches the version computation (clean trees or
`force`, parseable and incrementable version) and in which the computed
`new_version` already exists as a tag of the main repository — the guard reads
the repository's tag list directly, independently of the changelog — the step
sequence aborts with kind `TagAlreadyExists` and status 1 before any file or
repository mutation: the changelog, the config lines, both repositories and
the installers directory are exactly as in the starting world, and the process
exits with status 1. -/
theorem C4_theorem (env : Env) (opts : Opts) (w : World)
    (hforce : opts.force = true ∨ w.repo.hasLocalChanges = false)
    (hdocs : w.ghPagesRepo.hasLocalChanges = false)
    (hparse : env.parseOk = true) (hincr : env.incrementOk = true)
    (htag : env.nextVersion ∈ w.repo.tags) :
    (run_make_release env { world := w, md := mkReleaseMetadata opts w }).1
        = some (Err.exit 1 ExitKind.tagAlreadyExists)
    ∧ (run_make_release env { world := w, md := mkReleaseMetadata opts w }).2.world.changelog
        = w.changelog
    ∧ (run_make_release env { world := w, md := mkReleaseMetadata opts w }).2.world.configLines
        = w.configLines
    ∧ (run_make_release env { world := w, md := mkReleaseMetadata opts w }).2.world.repo
        = w.repo
    ∧ (run_make_release env { world := w, md := mkReleaseMetadata opts w }).2.world.ghPagesRepo
        = w.ghPagesRepo
    ∧ (run_make_release env { world := w, md := mkReleaseMetadata opts w }).2.world.installersDirExists
        = w.installersDirExists
    ∧ make_release env opts w
        = (1, (run_make_release env { world := w, md := mkReleaseMetadata opts w }).2.world) := by
  refine ⟨?_, ?_, ?_, ?_, ?_, ?_, ?_⟩ <;>
    rcases hforce with hf | hf <;>
      simp [make_release, run_make_release, andThen, check_branches_for_local_changes,
        get_next_version, check_if_tag_with_new_version_already_exists, mkReleaseMetadata,
        printOut, print_error, hf, hdocs, hparse, hincr, htag]

/-- Witness for C4 at a concrete run whose computed version `0.1.0` is already
a tag of the sample repository. -/
theorem C4_witness :
    (sampleOpts.force = true ∨ sampleWorld.repo.hasLocalChanges = false)
    ∧ sampleWorld.ghPagesRepo.hasLocalChanges = false
    ∧ tagExistsEnv.parseOk = true
    ∧ tagExistsEnv.incrementOk = true
    ∧ tagExistsEnv.nextVersion ∈ sampleWorld.repo.tags
    ∧ (run_make_release tagExistsEnv
        { world := sampleWorld, md := mkReleaseMetadata sampleOpts sampleWorld }).1
        = some (Err.exit 1 ExitKind.tagAlreadyExists)
    ∧ (run_make_release tagExistsEnv
        { world := sampleWorld, md := mkReleaseMetadata sampleOpts sampleWorld }).2.world.changelog
        = sampleWorld.changelog :=
  ⟨Or.inr rfl, rfl, rfl, rfl, by decide,
   (C4_theorem tagExistsEnv sampleOpts sampleWorld (Or.inr rfl) rfl rfl rfl (by decide)).1,
   (C4_theorem tagExistsEnv sampleOpts sampleWorld (Or.inr rfl) rfl rfl rfl (by decide)).2.1⟩

/-! ### Claim C8 -/

/-- The environment of a run whose interactive prompt is declined. -/
def declineEnv : Env := { sampleEnv with promptAffirmative := false }

/-- Interactive variant of the sample options. -/
def intOpts : Opts := { sampleOpts with interactive := true }

/-- The initial state of an interactive run on `dirWorld`. -/
def declineS0 : S := { world := dirWorld, md := mkReleaseMetadata intOpts dirWorld }

/-- The state of the declined run as the process terminates. -/
def declinedFinalS : S :=
  { world := (make_release declineEnv intOpts dirWorld).2,
    md := (run_make_release declineEnv declineS0).2.md }

/-- Counterexample to C8 as stated: a declined prompt on this interactive,
non-dry run prints `"Aborting."` to stderr and exits with status 2 — but the
rollback routine does *not* run on this path: the `SystemExit` of status 2
escapes the `except Exception` handler.  Observably, the pre-existing
installers output directory survives to process termination, whereas the
rollback routine applied to the terminal state (a non-dry-run context) would
have removed it. -/
theorem C8_counterexample :
    (make_release declineEnv intOpts dirWorld).1 = 2
    ∧ "Aborting." ∈ (make_release declineEnv intOpts dirWorld).2.stderrLines
    ∧ (make_release declineEnv intOpts dirWorld).2.installersDirExists = true
    ∧ declinedFinalS.md.opts.dryRun = false
    ∧ (rollback declineEnv declinedFinalS).2.world.installersDirExists = false :=
  ⟨by decide, by decide, by decide, by decide, by decide⟩

/-- C8 (amended): in every interactive run that reaches the prompt, a response
that does not parse as an affirmative boolean prints `"Aborting."` to the
error stream and exits with status `PROMPT_NO_EXIT_STATUS` = 2, not the
generic failure status 1 — and the rollback routine does not run on this
path (the `SystemExit` bypasses the `except Exception` handler; the whole
observable world frame, the installers directory included, is exactly the
starting one, only the printed text differing). -/
theorem C8_theorem (env : Env) (opts : Opts) (w : World)
    (hint : opts.interactive = true) (hresp : env.promptAffirmative = false)
    (hforce : opts.force = true ∨ w.repo.hasLocalChanges = false)
    (hdocs : w.ghPagesRepo.hasLocalChanges = false)
    (hparse : env.parseOk = true) (hincr : env.incrementOk = true)
    (htag : env.nextVersion ∉ w.repo.tags) :
    (make_release env opts w).1 = PROMPT_NO_EXIT_STATUS
    ∧ PROMPT_NO_EXIT_STATUS ≠ 1
    ∧ (make_release env opts w).2.stderrLines = w.stderrLines ++ ["Aborting."]
    ∧ worldFrame w (make_release env opts w).2 := by
  refine ⟨?_, by decide, ?_, ?_⟩ <;>
    rcases hforce with hf | hf <;>
      simp [make_release, run_make_release, andThen, check_branches_for_local_changes,
        get_next_version, check_if_tag_with_new_version_already_exists, prompt_to_proceed,
        PROMPT_NO_EXIT_STATUS, mkReleaseMetadata, worldFrame, printOut, print_error,
        hint, hresp, hf, hdocs, hparse, hincr, htag]

/-- Witness for C8 at a concrete declined interactive run. -/
theorem C8_witness :
    intOpts.interactive = true
    ∧ declineEnv.promptAffirmative = false
    ∧ declineEnv.nextVersion ∉ sampleWorld.repo.tags
    ∧ (make_release declineEnv intOpts sampleWorld).1 = PROMPT_NO_EXIT_STATUS
    ∧ worldFrame sampleWorld (make_release declineEnv intOpts sampleWorld).2 :=
  ⟨rfl, rfl, by decide,
   (C8_theorem declineEnv intOpts sampleWorld rfl rfl (Or.inr rfl) rfl rfl rfl (by decide)).1,
   (C8_theorem declineEnv intOpts sampleWorld rfl rfl (Or.inr rfl) rfl rfl rfl
     (by decide)).2.2.2⟩

/-! ### Claim C5: lemmas about the config scan -/

/-- The pending entries left by one line are exactly those whose pattern the
line does not match. -/
theorem processLine_snd (pending : List (String × String)) (line cur : String) :
    (processLine pending line cur).2
      = pending.filter (fun e => !(lineMatchesEntry e.1 line)) := by
  induction pending generalizing cur with
  | nil => rfl
  | cons e rest ih =>
    cases hm : lineMatchesEntry e.1 line with
    | true => simp [processLine, hm, ih]
    | false => simp [processLine, hm, ih]

/-- If every matching entry substitutes to the same value the accumulator
already holds, the accumulator survives. -/
theorem processLine_fst_const (pending : List (String × String)) (line v : String)
    (h : ∀ e ∈ pending, lineMatchesEntry e.1 line = true → substEntry e.1 e.2 line = v) :
    (processLine pending line v).1 = v := by
  induction pending with
  | nil => rfl
  | cons e rest ih =>
    cases hm : lineMatchesEntry e.1 line with
    | false =>
      simp only [processLine, hm, Bool.false_eq_true, if_false]
      exact ih (fun e' he' => h e' (List.mem_cons_of_mem e he'))
    | true =>
      have hv := h e (List.mem_cons_self e rest) hm
      simp only [processLine, hm, if_true, hv]
      exact ih (fun e' he' => h e' (List.mem_cons_of_mem e he'))

/-- When exactly one entry (up to equality) matches the line, the stored line
is that entry's substitution of the original line. -/
theorem processLine_fst_match (pending : List (String × String)) (line : String)
    (e0 : String × String) (he0 : e0 ∈ pending) (hm0 : lineMatchesEntry e0.1 line = true)
    (huniq : ∀ e ∈ pending, lineMatchesEntry e.1 line = true → e = e0) :
    (processLine pending line line).1 = substEntry e0.1 e0.2 line := by
  induction pending with
  | nil => cases he0
  | cons e rest ih =>
    cases hm : lineMatchesEntry e.1 line with
    | true =>
      have he : e = e0 := huniq e (List.mem_cons_self e rest) hm
      subst he
      simp only [processLine, hm, if_true]
      exact processLine_fst_const rest line _ (fun e' he' hm' => by
        rw [huniq e' (List.mem_cons_of_mem e he') hm'])
    | false =>
      have he0' : e0 ∈ rest := by
        rcases List.mem_cons.mp he0 with h | h
        · rw [h] at hm0
          simp [hm0] at hm
        · exact h
      simp only [processLine, hm, Bool.false_eq_true, if_false]
      exact ih he0' (fun e' he' => huniq e' (List.mem_cons_of_mem e he'))

/-- The missing entries of the scan are exactly the entries no line matches. -/
theorem scanLines_snd (pending : List (String × String)) (lines : List String) :
    (scanLines pending lines).2
      = pending.filter (fun e => lines.all (fun l => !(lineMatchesEntry e.1 l))) := by
  induction lines generalizing pending with
  | nil => simp [scanLines]
  | cons l ls ih =>
    simp only [scanLines, processLine_snd]
    split
    · rename_i hEmp
      rw [List.isEmpty_iff] at hEmp
      have hall : ∀ e ∈ pending, lineMatchesEntry e.1 l = true := by
        intro e he
        have := List.filter_eq_nil_iff.mp hEmp e he
        simpa using this
      symm
      rw [List.filter_eq_nil_iff]
      intro e he
      simp [List.all_cons, hall e he]
    · rw [ih, List.filter_filter]
      apply List.filter_congr
      intro e _
      simp [List.all_cons, Bool.and_comm]

/-- The scan never changes the number of lines. -/
theorem scanLines_fst_length (pending : List (String × String)) (lines : List String) :
    (scanLines pending lines).1.length = lines.length := by
  induction lines generalizing pending with
  | nil => rfl
  | cons l ls ih =>
    simp only [scanLines]
    split
    · simp
    · simp [ih]

/-- Every entry some line matches ends up substituted, with its own new value,
at the position of such a line in the scan's output — provided no line matches
two distinct requested entries. -/
theorem scanLines_subst (pending : List (String × String)) (lines : List String)
    (hsep : ∀ l ∈ lines, ∀ e1 ∈ pending, ∀ e2 ∈ pending,
      lineMatchesEntry e1.1 l = true → lineMatchesEntry e2.1 l = true → e1 = e2) :
    ∀ e ∈ pending, (∃ l ∈ lines, lineMatchesEntry e.1 l = true) →
      ∃ (i : Nat) (li : String), lines[i]? = some li ∧ lineMatchesEntry e.1 li = true
        ∧ (scanLines pending lines).1[i]? = some (substEntry e.1 e.2 li) := by
  induction lines generalizing pending with
  | nil =>
    rintro e he ⟨l, hl, hm⟩
    cases hl
  | cons l ls ih =>
    intro e he hex
    cases hm : lineMatchesEntry e.1 l with
    | true =>
      have hfst : (processLine pending l l).1 = substEntry e.1 e.2 l :=
        processLine_fst_match pending l e he hm
          (fun e' he' hm' =>
            hsep l (List.mem_cons_self l ls) e' he' e he hm' hm)
      refine ⟨0, l, by simp, hm, ?_⟩
      simp only [scanLines]
      split
      · simpa using hfst
      · simpa using hfst
    | false =>
      obtain ⟨l', hl', hm'⟩ := hex
      have hl2 : l' ∈ ls := by
        rcases List.mem_cons.mp hl' with h | h
        · rw [h] at hm'
          simp [hm'] at hm
        · exact h
      have heP : e ∈ (processLine pending l l).2 := by
        rw [processLine_snd]
        exact List.mem_filter.mpr ⟨he, by simp [hm]⟩
      have hne : (processLine pending l l).2.isEmpty = false := by
        cases hEq : (processLine pending l l).2.isEmpty with
        | false => rfl
        | true =>
          rw [List.isEmpty_iff] at hEq
          rw [hEq] at heP
          cases heP
      have hsep' : ∀ l0 ∈ ls, ∀ e1 ∈ (processLine pending l l).2,
          ∀ e2 ∈ (processLine pending l l).2,
          lineMatchesEntry e1.1 l0 = true → lineMatchesEntry e2.1 l0 = true → e1 = e2 := by
        intro l0 hl0 e1 he1 e2 he2 h1 h2
        rw [processLine_snd] at he1 he2
        exact hsep l0 (List.mem_cons_of_mem l hl0)
          e1 (List.mem_of_mem_filter he1) e2 (List.mem_of_mem_filter he2) h1 h2
      obtain ⟨i, li, hget, hmli, hout⟩ :=
        ih (processLine pending l l).2 hsep' e heP ⟨l', hl2, hm'⟩
      refine ⟨i + 1, li, by simpa using hget, hmli, ?_⟩
      simp only [scanLines, hne, Bool.false_eq_true, if_false]
      simpa using hout

/-- Counterexample to C5 as stated: with requested entries
`("A", "1")`, `("A = "q" X", "2")`, `("C", "3")` and the single config line
`c.A = "q" X = "old"`, both the first and the second entry's anchored pattern
match that one line (the second name extends the first), so the scan lets the
second substitution overwrite the first: the update fails with exactly `C`
missing — that part of the claim holds — but the found entry `("A", "1")` is
*not* substituted with its new value anywhere in the output lines, refuting
the claim's substitution conjunct at this input. -/
theorem C5_counterexample :
    (scanLines [("A", "1"), ("A = \"q\" X", "2"), ("C", "3")]
        ["c.A = \"q\" X = \"old\""]).2 = [("C", "3")]
    ∧ lineMatchesEntry "A" "c.A = \"q\" X = \"old\"" = true
    ∧ lineMatchesEntry "A = \"q\" X" "c.A = \"q\" X = \"old\"" = true
    ∧ (("A", "1") : String × String) ≠ ("A = \"q\" X", "2")
    ∧ (scanLines [("A", "1"), ("A = \"q\" X", "2"), ("C", "3")]
        ["c.A = \"q\" X = \"old\""]).1 = ["c.A = \"q\" X = \"2\""]
    ∧ substEntry "A" "1" "c.A = \"q\" X = \"old\"" = "c.A = \"1\""
    ∧ "c.A = \"1\"" ∉ (scanLines [("A", "1"), ("A = \"q\" X", "2"), ("C", "3")]
        ["c.A = \"q\" X = \"old\""]).1 :=
  ⟨by decide, by decide, by decide, by decide, by decide, by decide, by decide⟩

/-- C5 (amended): for every input line list and requested entry list in which
no single line matches the patterns of two distinct requested entries, the
config scan reports as missing exactly the entries for which no line matching
`c.<NAME> = "<value>"` was found (and it fails, with the missing-entries exit,
precisely when that set is nonempty); the output has one line per input line;
and every found entry has been substituted, with its own new value, at the
position of a line its pattern matches. -/
theorem C5_theorem (entries : List (String × String)) (lines : List String)
    (hsep : ∀ l ∈ lines, ∀ e1 ∈ entries, ∀ e2 ∈ entries,
      lineMatchesEntry e1.1 l = true → lineMatchesEntry e2.1 l = true → e1 = e2) :
    (scanLines entries lines).2
      = entries.filter (fun e => lines.all (fun l => !(lineMatchesEntry e.1 l)))
    ∧ (scanLines entries lines).1.length = lines.length
    ∧ (∀ e ∈ entries, (∃ l ∈ lines, lineMatchesEntry e.1 l = true) →
        ∃ (i : Nat) (li : String), lines[i]? = some li ∧ lineMatchesEntry e.1 li = true
          ∧ (scanLines entries lines).1[i]? = some (substEntry e.1 e.2 li))
    ∧ ((∀ e ∈ entries, ∃ l ∈ lines, lineMatchesEntry e.1 l = true) →
        (scanLines entries lines).2 = [])
    ∧ (∀ (env : Env) (s : S), s.md.opts.dryRun = false →
        ((update_version_and_release_date_in_config env s).1
            = some (Err.exit 1 ExitKind.missingConfigEntries)
          ↔ (scanLines [("PLUGIN_VERSION", s.md.newVersion.getD ""),
              ("PLUGIN_VERSION_RELEASE_DATE", env.releaseDate)]
              s.world.configLines).2 ≠ [])) := by
  refine ⟨scanLines_snd entries lines, scanLines_fst_length entries lines,
    scanLines_subst entries lines hsep, ?_, ?_⟩
  · intro hall
    rw [scanLines_snd, List.filter_eq_nil_iff]
    intro e he
    obtain ⟨l, hl, hm⟩ := hall e he
    simp only [List.all_eq_true, not_forall]
    refine ⟨l, hl, by simp [hm]⟩
  · intro env s hd
    by_cases hE : (scanLines [("PLUGIN_VERSION", s.md.newVersion.getD ""),
        ("PLUGIN_VERSION_RELEASE_DATE", env.releaseDate)] s.world.configLines).2 = []
    · simp [update_version_and_release_date_in_config, printOut, print_error, hd, hE]
    · simp [update_version_and_release_date_in_config, printOut, print_error, hd, hE,
        List.isEmpty_iff]

/-- Witness for C5 at concrete entries and lines (one entry found, one
missing). -/
theorem C5_witness :
    (∀ l ∈ (["c.PLUGIN_VERSION = \"3.3\"\n", "tail\n"] : List String),
      ∀ e1 ∈ ([("PLUGIN_VERSION", "3.4"), ("MISSING", "x")] : List (String × String)),
      ∀ e2 ∈ ([("PLUGIN_VERSION", "3.4"), ("MISSING", "x")] : List (String × String)),
        lineMatchesEntry e1.1 l = true → lineMatchesEntry e2.1 l = true → e1 = e2)
    ∧ (scanLines [("PLUGIN_VERSION", "3.4"), ("MISSING", "x")]
          ["c.PLUGIN_VERSION = \"3.3\"\n", "tail\n"]).2
        = [("PLUGIN_VERSION", "3.4"), ("MISSING", "x")].filter
            (fun e => ["c.PLUGIN_VERSION = \"3.3\"\n", "tail\n"].all
              (fun l => !(lineMatchesEntry e.1 l)))
    ∧ (scanLines [("PLUGIN_VERSION", "3.4"), ("MISSING", "x")]
          ["c.PLUGIN_VERSION = \"3.3\"\n", "tail\n"]).1.length
        = (["c.PLUGIN_VERSION = \"3.3\"\n", "tail\n"] : List String).length :=
  ⟨by decide,
   (C5_theorem [("PLUGIN_VERSION", "3.4"), ("MISSING", "x")]
     ["c.PLUGIN_VERSION = \"3.3\"\n", "tail\n"] (by decide)).1,
   (C5_theorem [("PLUGIN_VERSION", "3.4"), ("MISSING", "x")]
     ["c.PLUGIN_VERSION = \"3.3\"\n", "tail\n"] (by decide)).2.1⟩

/-! ### Claims C6 and C7: lemmas about the header machinery -/

theorem splitAtNewline_append (l r : List Char) (h : '\n' ∉ l) :
    splitAtNewline (l ++ '\n' :: r) = some (l, r) := by
  induction l with
  | nil => simp [splitAtNewline]
  | cons c cs ih =>
    have hc : ¬c = '\n' := fun e => h (e ▸ List.mem_cons_self c cs)
    have hcs : '\n' ∉ cs := fun hm => h (List.mem_cons_of_mem c hm)
    simp only [List.cons_append, splitAtNewline, hc, if_false, List.append_eq]
    rw [ih hcs]
    rfl

theorem linesWithEndsAux_append (l : List Char) (cur r : List Char) (h : '\n' ∉ l) :
    linesWithEndsAux cur (l ++ '\n' :: r)
      = ((cur.reverse ++ l) ++ ['\n']) :: linesWithEndsAux [] r := by
  induction l generalizing cur with
  | nil => simp [linesWithEndsAux]
  | cons c cs ih =>
    have hc : ¬c = '\n' := fun e => h (e ▸ List.mem_cons_self c cs)
    have hcs : '\n' ∉ cs := fun hm => h (List.mem_cons_of_mem c hm)
    simp only [List.cons_append, linesWithEndsAux, hc, if_false, List.append_eq]
    rw [ih (c :: cur) hcs]
    simp [List.reverse_cons, List.append_assoc]

theorem linesWithEnds_append (l r : List Char) (h : '\n' ∉ l) :
    linesWithEnds (l ++ '\n' :: r) = (l ++ ['\n']) :: linesWithEnds r := by
  simp [linesWithEnds, linesWithEndsAux_append l [] r h]

theorem eqRunAfter_replicate (k : Nat) (r : List Char) :
    eqRunAfter (List.replicate k '=' ++ '\n' :: r) = some r := by
  induction k with
  | zero => simp [eqRunAfter]
  | succ m ih => simpa [List.replicate_succ, eqRunAfter] using ih

theorem eqRunSplit_replicate (k : Nat) (hk : 1 ≤ k) (r : List Char) :
    eqRunSplit (List.replicate k '=' ++ '\n' :: r) = some r := by
  obtain ⟨m, rfl⟩ := Nat.exists_eq_add_of_le hk
  simp [List.replicate_succ, List.replicate_add, eqRunSplit, eqRunAfter_replicate,
    Nat.add_comm]

theorem hashMatchAt_cons (rest : List Char) :
    hashMatchAt ('#' :: ' ' :: rest) = splitAtNewline rest := by
  simp [hashMatchAt]

theorem hashMatchAt_of_not_hash (cs : List Char) (h : startsWithHash cs = false) :
    hashMatchAt cs = none := by
  match cs with
  | [] => rfl
  | [c] => rfl
  | c1 :: c2 :: rest =>
    simp only [startsWithHash, Bool.and_eq_false_iff, decide_eq_false_iff_not] at h
    rcases h with h | h <;> simp [hashMatchAt, h]

theorem underlineMatchAt_eq (cs t r tail : List Char)
    (h1 : splitAtNewline cs = some (t, r)) (h2 : eqRunSplit r = some tail) :
    underlineMatchAt cs = some (t, tail) := by
  simp [underlineMatchAt, h1, h2]

theorem hashMatchSplit_at_head (cs : List Char) (t tail : List Char)
    (h : hashMatchAt cs = some (t, tail)) :
    hashMatchSplit cs = some ([], t, tail) := by
  match cs with
  | [] => cases h
  | c :: rest => simp [hashMatchSplit, h]

theorem underlineMatchSplit_at_head (cs : List Char) (t tail : List Char)
    (h : underlineMatchAt cs = some (t, tail)) :
    underlineMatchSplit cs = some ([], t, tail) := by
  match cs with
  | [] => simp [underlineMatchAt, splitAtNewline] at h
  | c :: rest => simp [underlineMatchSplit, h]

theorem firstHeaderMatch_hash (cs : List Char) (t tail : List Char)
    (h : hashMatchAt cs = some (t, tail)) :
    firstHeaderMatch cs = some (true, t) := by
  match cs with
  | [] => cases h
  | c :: rest => simp [firstHeaderMatch, h]

theorem firstHeaderMatch_under (cs : List Char) (t tail : List Char)
    (h0 : hashMatchAt cs = none) (h : underlineMatchAt cs = some (t, tail)) :
    firstHeaderMatch cs = some (false, t) := by
  match cs with
  | [] => simp [underlineMatchAt, splitAtNewline] at h
  | c :: rest => simp [firstHeaderMatch, h0, h]

theorem findHeader_hash_head (l : List Char) (ls : List (List Char))
    (h : lineIsHashHeader l = true) :
    findHeader (l :: ls) = some (l, ls) := by
  cases ls <;> simp [findHeader, h]

theorem findHeader_under_head (l l2 : List Char) (ls : List (List Char))
    (h1 : lineIsHashHeader l = false) (h2 : isEqUnderlineLine l2 = true) :
    findHeader (l :: l2 :: ls) = some (l ++ l2, ls) := by
  simp [findHeader, h1, h2]

theorem startsWithHash_append_newline (xs : List Char) :
    startsWithHash (xs ++ ['\n']) = startsWithHash xs := by
  match xs with
  | [] => rfl
  | [c] => simp [startsWithHash]
  | c1 :: c2 :: rest => rfl

theorem splitTrailingNewline_append (xs : List Char) :
    splitTrailingNewline (xs ++ ['\n']) = (xs, true) := by
  unfold splitTrailingNewline
  simp [List.reverse_append]

theorem isEqUnderlineLine_replicate (k : Nat) (hk : 1 ≤ k) :
    isEqUnderlineLine (List.replicate k '=' ++ ['\n']) = true := by
  simp only [isEqUnderlineLine, splitTrailingNewline_append]
  have : (List.replicate k '=').isEmpty = false := by
    obtain ⟨m, rfl⟩ := Nat.exists_eq_add_of_le hk
    simp [List.replicate_succ, Nat.add_comm, List.replicate_add]
  simp [this, List.all_eq_true]

theorem startsWithHash_append_cons (xs ys : List Char) (h : startsWithHash xs = false) :
    startsWithHash (xs ++ '\n' :: ys) = false := by
  match xs with
  | [] => cases ys <;> simp [startsWithHash]
  | [c] => simp [startsWithHash]
  | c1 :: c2 :: rest => simpa [startsWithHash] using h

theorem notMem_hash_line (t : List Char) (ht : '\n' ∉ t) :
    '\n' ∉ '#' :: ' ' :: t := by
  intro h
  rcases List.mem_cons.mp h with h | h
  · exact absurd h (by decide)
  rcases List.mem_cons.mp h with h | h
  · exact absurd h (by decide)
  · exact ht h

theorem notMem_replicate_eq (k : Nat) : '\n' ∉ List.replicate k '=' := by
  intro h
  exact absurd (List.eq_of_mem_replicate h) (by decide)

theorem data_hash_doc (t rest : String) :
    ("# " ++ t ++ "\n" ++ rest).data = '#' :: ' ' :: (t.data ++ '\n' :: rest.data) := by
  have h1 : "# ".data = ['#', ' '] := rfl
  have h2 : "\n".data = ['\n'] := rfl
  simp [String.data_append, h1, h2]

theorem data_under_doc (t rest : String) (k : Nat) :
    (t ++ "\n" ++ String.mk (List.replicate k '=') ++ "\n" ++ rest).data
      = t.data ++ '\n' :: (List.replicate k '=' ++ '\n' :: rest.data) := by
  have h2 : "\n".data = ['\n'] := rfl
  simp [String.data_append, h2]

theorem find_section_hash_fst (t rest : String) (ht : '\n' ∉ t.data) :
    (find_section ("# " ++ t ++ "\n" ++ rest)).1
      = String.mk (('#' :: ' ' :: t.data) ++ ['\n']) := by
  unfold find_section
  rw [show ("# " ++ t ++ "\n" ++ rest).data
      = ('#' :: ' ' :: t.data) ++ '\n' :: rest.data by
    rw [data_hash_doc]; simp]
  rw [linesWithEnds_append _ _ (notMem_hash_line t.data ht)]
  rw [findHeader_hash_head]
  · simp [lineIsHashHeader, startsWithHash]

theorem find_section_under_fst (t rest : String) (k : Nat) (hk : 1 ≤ k)
    (ht : '\n' ∉ t.data) (hth : startsWithHash t.data = false) :
    (find_section (t ++ "\n" ++ String.mk (List.replicate k '=') ++ "\n" ++ rest)).1
      = String.mk ((t.data ++ ['\n']) ++ (List.replicate k '=' ++ ['\n'])) := by
  unfold find_section
  rw [show (t ++ "\n" ++ String.mk (List.replicate k '=') ++ "\n" ++ rest).data
      = t.data ++ '\n' :: (List.replicate k '=' ++ '\n' :: rest.data) from
    data_under_doc t rest k]
  rw [linesWithEnds_append _ _ ht]
  rw [show List.replicate k '=' ++ '\n' :: rest.data
      = (List.replicate k '=') ++ '\n' :: rest.data from rfl]
  rw [linesWithEnds_append _ _ (notMem_replicate_eq k)]
  rw [findHeader_under_head]
  · rw [lineIsHashHeader, startsWithHash_append_newline]
    exact hth
  · exact isEqUnderlineLine_replicate k hk

theorem firstHeaderMatch_hash_doc (t rest : String) (ht : '\n' ∉ t.data) :
    firstHeaderMatch (find_section ("# " ++ t ++ "\n" ++ rest)).1.data
      = some (true, t.data) := by
  rw [find_section_hash_fst t rest ht]
  apply firstHeaderMatch_hash _ t.data []
  show hashMatchAt ('#' :: ' ' :: (t.data ++ ['\n'])) = some (t.data, [])
  rw [hashMatchAt_cons]
  exact splitAtNewline_append t.data [] ht

theorem firstHeaderMatch_under_doc (t rest : String) (k : Nat) (hk : 1 ≤ k)
    (ht : '\n' ∉ t.data) (hth : startsWithHash t.data = false) :
    firstHeaderMatch
        (find_section (t ++ "\n" ++ String.mk (List.replicate k '=') ++ "\n" ++ rest)).1.data
      = some (false, t.data) := by
  rw [find_section_under_fst t rest k hk ht hth]
  show firstHeaderMatch ((t.data ++ ['\n']) ++ (List.replicate k '=' ++ ['\n']))
      = some (false, t.data)
  rw [show (t.data ++ ['\n']) ++ (List.replicate k '=' ++ ['\n'])
      = t.data ++ '\n' :: (List.replicate k '=' ++ ['\n']) by simp]
  apply firstHeaderMatch_under _ t.data []
  · exact hashMatchAt_of_not_hash _ (startsWithHash_append_cons _ _ hth)
  · apply underlineMatchAt_eq _ _ (List.replicate k '=' ++ ['\n']) []
    · exact splitAtNewline_append t.data _ ht
    · rw [show List.replicate k '=' ++ ['\n'] = List.replicate k '=' ++ '\n' :: [] from rfl]
      exact eqRunSplit_replicate k hk []

theorem subHash_doc (t v rest : String) (ht : '\n' ∉ t.data) :
    subHash v.data ("# " ++ t ++ "\n" ++ rest).data = ("# " ++ v ++ "\n" ++ rest).data := by
  rw [data_hash_doc]
  unfold subHash
  rw [hashMatchSplit_at_head _ t.data rest.data]
  · rw [data_hash_doc]
    simp
  · show hashMatchAt ('#' :: ' ' :: (t.data ++ '\n' :: rest.data)) = some (t.data, rest.data)
    rw [hashMatchAt_cons]
    exact splitAtNewline_append t.data rest.data ht

theorem subUnderline_doc (t v rest : String) (k : Nat) (hk : 1 ≤ k)
    (ht : '\n' ∉ t.data) :
    subUnderline v.data (t ++ "\n" ++ String.mk (List.replicate k '=') ++ "\n" ++ rest).data
      = (v ++ "\n" ++ String.mk (List.replicate v.length '=') ++ "\n" ++ rest).data := by
  rw [data_under_doc t rest k, data_under_doc v rest v.length]
  unfold subUnderline
  rw [underlineMatchSplit_at_head _ t.data rest.data]
  · simp only [List.nil_append]
    rfl
  · apply underlineMatchAt_eq _ _ (List.replicate k '=' ++ '\n' :: rest.data) rest.data
    · exact splitAtNewline_append t.data _ ht
    · exact eqRunSplit_replicate k hk rest.data

theorem modifyChangelog_hash (t v rest : String) (released : List String)
    (ht : '\n' ∉ t.data) (htne : t.data ≠ []) (hmem : t ∉ released) :
    (modifyChangelog v released false ("# " ++ t ++ "\n" ++ rest)).2
      = some ("# " ++ v ++ "\n" ++ rest) := by
  have hm := firstHeaderMatch_hash_doc t rest ht
  simp only [modifyChangelog, hm]
  rw [if_neg hmem]
  simp only [Bool.false_eq_true, if_false, eq_self_iff_true, if_true]
  rw [if_neg (show ¬t.data.isEmpty = true by simpa [List.isEmpty_iff] using htne)]
  rw [subHash_doc t v rest ht]

theorem modifyChangelog_under (t v rest : String) (released : List String) (k : Nat)
    (hk : 1 ≤ k) (ht : '\n' ∉ t.data) (htne : t.data ≠ [])
    (hth : startsWithHash t.data = false) (hmem : t ∉ released) :
    (modifyChangelog v released false
        (t ++ "\n" ++ String.mk (List.replicate k '=') ++ "\n" ++ rest)).2
      = some (v ++ "\n" ++ String.mk (List.replicate v.length '=') ++ "\n" ++ rest) := by
  have hm := firstHeaderMatch_under_doc t rest k hk ht hth
  simp only [modifyChangelog, hm]
  rw [if_neg hmem]
  simp only [Bool.false_eq_true, if_false]
  rw [if_neg (show ¬t.data.isEmpty = true by simpa [List.isEmpty_iff] using htne)]
  rw [subUnderline_doc t v rest k hk ht]

theorem firstSectionTitle_hash (v rest : String) (hv : '\n' ∉ v.data) :
    firstSectionTitle ("# " ++ v ++ "\n" ++ rest) = some v := by
  unfold firstSectionTitle
  rw [firstHeaderMatch_hash_doc v rest hv]
  rfl

theorem firstSectionTitle_under (v rest : String) (k : Nat) (hk : 1 ≤ k)
    (hv : '\n' ∉ v.data) (hvh : startsWithHash v.data = false) :
    firstSectionTitle (v ++ "\n" ++ String.mk (List.replicate k '=') ++ "\n" ++ rest)
      = some v := by
  unfold firstSectionTitle
  rw [firstHeaderMatch_under_doc v rest k hk hv hvh]
  rfl

theorem modifyChangelog_released_none (nv : String) (released : List String) (dry : Bool)
    (doc : String) (b : Bool) (title : List Char)
    (hm : firstHeaderMatch (find_section doc).1.data = some (b, title))
    (hmem : String.mk title ∈ released) :
    modifyChangelog nv released dry doc = (none, none) := by
  simp only [modifyChangelog, hm]
  rw [if_pos hmem]

/-- The sample unreleased section title. -/
def uTitle : String := "Unreleased"

/-- The sample new version string. -/
def vNew : String := "1.3.0"

/-- The sample section body following the header. -/
def restNotes : String := "- note\n"

/-- The sample released-versions snapshot. -/
def relSample : List String := ["0.1.0"]

/-- Counterexample to C6 as stated: the document
`"i # x\n# Unreleased\nnotes\n"` has first section header `# Unreleased`
(its preamble line `i # x` does not begin with `"# "`, so it is not a header),
and the title `Unreleased` is not among the released versions — yet the
rewrite replaces the leftmost occurrence of the pattern `# .*?\n` in the whole
document, which begins mid-way through the preamble line: the result rewrites
the preamble to `i # 1.3.0` and leaves the header's title `Unreleased`
untouched.  The claim-predicted output (only the header's title rewritten,
everything outside the header and notes preserved byte-for-byte) differs. -/
theorem C6_counterexample :
    (modifyChangelog "1.3.0" [] false "i # x\n# Unreleased\nnotes\n").2
      = some "i # 1.3.0\n# Unreleased\nnotes\n"
    ∧ firstSectionTitle "i # x\n# Unreleased\nnotes\n" = some "Unreleased"
    ∧ "Unreleased" ∉ ([] : List String)
    ∧ (some "i # 1.3.0\n# Unreleased\nnotes\n" : Option String)
        ≠ some "i # x\n# 1.3.0\nnotes\n" :=
  ⟨by decide, by decide, by decide, by decide⟩

/-- C6 (amended): for every changelog document that begins with its first
section header — a nonempty-titled header in either style, the title not among
the released versions and not itself resembling a `#`-header — the retitling
rewrites exactly the header's title to `new_version`, preserves the header
style in use (the `#`-form stays a `#`-form; the underline form keeps an
underline whose length equals the new version string's length), and preserves
all document text after the header (the notes region included) byte-for-byte. -/
theorem C6_theorem (t v rest : String) (released : List String) (k : Nat)
    (hk : 1 ≤ k) (ht : '\n' ∉ t.data) (htne : t.data ≠ [])
    (hth : startsWithHash t.data = false) (hmem : t ∉ released) :
    (modifyChangelog v released false ("# " ++ t ++ "\n" ++ rest)).2
        = some ("# " ++ v ++ "\n" ++ rest)
    ∧ (modifyChangelog v released false
          (t ++ "\n" ++ String.mk (List.replicate k '=') ++ "\n" ++ rest)).2
        = some (v ++ "\n" ++ String.mk (List.replicate v.length '=') ++ "\n" ++ rest) :=
  ⟨modifyChangelog_hash t v rest released ht htne hmem,
   modifyChangelog_under t v rest released k hk ht htne hth hmem⟩

/-- Witness for C6 at a concrete unreleased header in both styles. -/
theorem C6_witness :
    (1 ≤ 3 ∧ '\n' ∉ "Unreleased".data ∧ "Unreleased".data ≠ []
      ∧ startsWithHash "Unreleased".data = false ∧ "Unreleased" ∉ ["0.1.0"])
    ∧ (modifyChangelog "1.3.0" ["0.1.0"] false ("# " ++ "Unreleased" ++ "\n" ++ "- note\n")).2
        = some ("# " ++ "1.3.0" ++ "\n" ++ "- note\n")
    ∧ (modifyChangelog "1.3.0" ["0.1.0"] false
          ("Unreleased" ++ "\n" ++ String.mk (List.replicate 3 '=') ++ "\n" ++ "- note\n")).2
        = some ("1.3.0" ++ "\n" ++ String.mk (List.replicate "1.3.0".length '=') ++ "\n"
            ++ "- note\n") :=
  ⟨⟨by decide, by decide, by decide, by decide, by decide⟩,
   (C6_theorem uTitle vNew restNotes relSample 3 (by decide) (by decide)
     (by decide) (by decide) (by decide)).1,
   (C6_theorem uTitle vNew restNotes relSample 3 (by decide) (by decide)
     (by decide) (by decide) (by decide)).2⟩

/-- Counterexample to C7 as stated: running the extract-and-retitle on the
document `"i # x\n# Unreleased\nnotes\n"` yields
`"i # 1.3.0\n# Unreleased\nnotes\n"` (the preamble, not the header, was
rewritten).  Re-running on this output with `1.3.0` now among the released
versions: the first section title is still `Unreleased`, not the previously
supplied `new_version`, the document is *not* reported as already-released,
and a further rewrite (a file write) is performed — refuting the claimed
idempotence at this input. -/
theorem C7_counterexample :
    (modifyChangelog "1.3.0" [] false "i # x\n# Unreleased\nnotes\n").2
      = some "i # 1.3.0\n# Unreleased\nnotes\n"
    ∧ firstSectionTitle "i # 1.3.0\n# Unreleased\nnotes\n" = some "Unreleased"
    ∧ (some "Unreleased" : Option String) ≠ some "1.3.0"
    ∧ (modifyChangelog "1.3.0" ["1.3.0"] false "i # 1.3.0\n# Unreleased\nnotes\n").2
        = some "i # 1.3.0\n# Unreleased\nnotes\n" :=
  ⟨by decide, by decide, by decide, by decide⟩

/-- C7 (amended): for every changelog document that begins with its first
section header (either style, nonempty title not among the released versions),
and every well-formed version string `v` (nonempty, newline-free, not
resembling a `#`-header), running the extract-and-retitle and then re-running
it on the output — with `v` now among the released versions — finds a first
section title equal to `v` and reports the document as already-released, so
the second run performs no rewrite and extracts nothing (for either header
style and any second new-version argument). -/
theorem C7_theorem (t v rest : String) (released : List String) (k : Nat)
    (hk : 1 ≤ k) (ht : '\n' ∉ t.data) (htne : t.data ≠ [])
    (hth : startsWithHash t.data = false) (hmem : t ∉ released)
    (hv : '\n' ∉ v.data) (hvne : v.data ≠ []) (hvh : startsWithHash v.data = false) :
    (modifyChangelog v released false ("# " ++ t ++ "\n" ++ rest)).2
        = some ("# " ++ v ++ "\n" ++ rest)
    ∧ firstSectionTitle ("# " ++ v ++ "\n" ++ rest) = some v
    ∧ (∀ v2 : String,
        modifyChangelog v2 (v :: released) false ("# " ++ v ++ "\n" ++ rest) = (none, none))
    ∧ (modifyChangelog v released false
          (t ++ "\n" ++ String.mk (List.replicate k '=') ++ "\n" ++ rest)).2
        = some (v ++ "\n" ++ String.mk (List.replicate v.length '=') ++ "\n" ++ rest)
    ∧ firstSectionTitle (v ++ "\n" ++ String.mk (List.replicate v.length '=') ++ "\n" ++ rest)
        = some v
    ∧ (∀ v2 : String,
        modifyChangelog v2 (v :: released) false
          (v ++ "\n" ++ String.mk (List.replicate v.length '=') ++ "\n" ++ rest)
        = (none, none)) := by
  have hlen : 1 ≤ v.length := List.length_pos.mpr hvne
  refine ⟨modifyChangelog_hash t v rest released ht htne hmem,
    firstSectionTitle_hash v rest hv, ?_,
    modifyChangelog_under t v rest released k hk ht htne hth hmem,
    firstSectionTitle_under v rest v.length hlen hv hvh, ?_⟩
  · intro v2
    exact modifyChangelog_released_none v2 (v :: released) false _ true v.data
      (firstHeaderMatch_hash_doc v rest hv) (List.mem_cons_self v released)
  · intro v2
    exact modifyChangelog_released_none v2 (v :: released) false _ false v.data
      (firstHeaderMatch_under_doc v rest v.length hlen hv hvh)
      (List.mem_cons_self v released)

/-- Witness for C7 at a concrete header and version string in both styles. -/
theorem C7_witness :
    ('\n' ∉ "1.3.0".data ∧ "1.3.0".data ≠ [] ∧ startsWithHash "1.3.0".data = false)
    ∧ firstSectionTitle ("# " ++ "1.3.0" ++ "\n" ++ "- note\n") = some "1.3.0"
    ∧ modifyChangelog "1.4.0" ("1.3.0" :: ["0.1.0"]) false ("# " ++ "1.3.0" ++ "\n" ++ "- note\n")
        = (none, none) :=
  ⟨⟨by decide, by decide, by decide⟩,
   (C7_theorem uTitle vNew restNotes relSample 3 (by decide) (by decide)
     (by decide) (by decide) (by decide) (by decide) (by decide) (by decide)).2.1,
   (C7_theorem uTitle vNew restNotes relSample 3 (by decide) (by decide)
     (by decide) (by decide) (by decide) (by decide) (by decide) (by decide)).2.2.1 "1.4.0"⟩
